import Mathlib

/-!
# GraphPostprocessor

A shallow embedding of `src/lib/component/controller/helper/GraphPostprocessor.cpp`
and the properties of its raster geometry, heat map and overlap resolution.

Modelling conventions.

* `int` values live in `Int`; C++ `/` and `%` on `int` are `Int.tdiv` and `Int.tmod`
  (truncation towards zero, remainder with the sign of the dividend). The functions of the
  overlap resolution are embedded in unbounded integers: they describe the runs whose
  intermediate values stay inside the `int` range.
* `alignOnRaster` and `calculateRasterNodeSize` are also embedded in the machine arithmetic
  of the source (`alignOnRaster32`, `calculateRasterNodeSize32`): a result computed in
  `int` or `unsigned int` is reduced modulo `2 ^ 32` (`wrapInt32`). The statements about
  these two functions that the wrap-around decides are made for the machine versions,
  which agree with the unbounded ones where nothing wraps around.
* Heat map cells are `unsigned int`: every stored count is reduced modulo `2 ^ 32`.
* Code that can fault returns `Except Fault`: an integer division by zero, a grid access
  outside the grid, or a loop that never exits.
* `float` arithmetic is a parameter (`FloatArith`); statements that do not depend on the
  computed float values hold for every such arithmetic.
-/

namespace GraphPostprocessor

/-- Ways in which a run of the code can fail to return. -/
inductive Fault where
  | divisionByZero
  | outOfRange
  | diverges
deriving DecidableEq, Repr

deriving instance DecidableEq for Except

/-- Integer vector `Vec2i`. -/
structure Vec2i where
  x : Int
  y : Int
deriving DecidableEq, Repr

/-- The two fields of `DummyNode` that the postprocessor reads and writes. -/
structure DummyNode where
  position : Vec2i
  size : Vec2i
deriving DecidableEq, Repr

/-- The static members `s_cellWidth`, `s_cellHeight`, `s_cellPadding` (lines 5-7). They are
initialised from `GraphViewStyle`, which is not part of the source at hand, so their values
are parameters. -/
structure Config where
  cellWidth : Nat
  cellHeight : Nat
  cellPadding : Nat
deriving DecidableEq, Repr

/-- The `float` operations the code uses. `ofInt` is the conversion of an integer to
`float`, `toInt` the truncating conversion back, `epsilon` the literal `0.000001f`. -/
structure FloatArith where
  F : Type
  ofInt : Int → F
  add : F → F → F
  sub : F → F → F
  mul : F → F → F
  div : F → F → F
  sqrt : F → F
  toInt : F → Int
  lt : F → F → Bool
  le : F → F → Bool
  eq : F → F → Bool
  epsilon : F

/-- Float vector `Vec2f`. -/
structure Vec2f (fa : FloatArith) where
  x : fa.F
  y : fa.F

/-- Bound of the `unsigned int` cell type. -/
def cellModulus : Nat := 2 ^ 32

/-- Modelled from the spec: the class `MatrixDynamicBase<unsigned int>` is not part of the
source at hand. It is the Grid of the spec, "a dynamically sized 2D counter field
supporting bounded get/set of unsigned counts at integer coordinates, with explicit
row/column extents". -/
structure Grid where
  columns : Nat
  rows : Nat
  cells : Nat → Nat → Nat

/-- Modelled from the spec: a freshly constructed grid of the given extents, all counts 0. -/
def Grid.create (numColumns numRows : Int) : Grid :=
  ⟨numColumns.toNat, numRows.toNat, fun _ _ => 0⟩

/-- Coordinates that address a cell of the grid. -/
def Grid.inRange (g : Grid) (x y : Int) : Prop :=
  0 ≤ x ∧ x < g.columns ∧ 0 ≤ y ∧ y < g.rows

instance (g : Grid) (x y : Int) : Decidable (g.inRange x y) := by
  unfold Grid.inRange; infer_instance

/-- Modelled from the spec: bounded read of one count. -/
def Grid.getValue (g : Grid) (x y : Int) : Except Fault Nat :=
  if g.inRange x y then .ok (g.cells x.toNat y.toNat) else .error .outOfRange

/-- Modelled from the spec: bounded write of one count, stored as `unsigned int`. -/
def Grid.setValue (g : Grid) (x y : Int) (v : Int) : Except Fault Grid :=
  if g.inRange x y then
    .ok { g with cells := fun a b =>
            if a = x.toNat ∧ b = y.toNat then (v % (cellModulus : Int)).toNat else g.cells a b }
  else .error .outOfRange

/-- A counting `for (int i = 0; i < n; i++)` loop: `remaining` iterations are left and the
counter stands at `i`. -/
def forLoopFrom {σ : Type} (body : Nat → σ → Except Fault σ) : Nat → Nat → σ → Except Fault σ
  | 0, _, s => .ok s
  | remaining + 1, i, s =>
    match body i s with
    | .ok s1 => forLoopFrom body remaining (i + 1) s1
    | .error e => .error e

/-- The loop `for (int i = 0; i < n; i++) body`; it does not run for `n ≤ 0`. -/
def forLoop {σ : Type} (n : Int) (body : Nat → σ → Except Fault σ) (s : σ) : Except Fault σ :=
  forLoopFrom body n.toNat 0 s

/-- The divisor `rasterPosDivisor` of `alignOnRaster` (line 80). -/
def rasterPosDivisor (cfg : Config) : Int :=
  (cfg.cellWidth : Int) + (cfg.cellPadding : Int)

/-- One axis of `alignOnRaster` (lines 82-100 for x, 102-120 for y) for the divisor `d`. -/
def alignAxis (d : Int) (p : Int) : Int :=
  if p.tmod d ≠ 0 then
    let t := p.tdiv d
    let r := p.tmod d
    let t :=
      if |r| > d.tdiv 2 then
        if t ≠ 0 then t + t.tdiv |t|
        else if r ≠ 0 then t + r.tdiv |r|
        else t
      else t
    t * d
  else p

/-- The function `alignOnRaster` (lines 78-123). Both axes use the width-based divisor. -/
def alignOnRaster (cfg : Config) (position : Vec2i) : Except Fault Vec2i :=
  if rasterPosDivisor cfg = 0 then .error .divisionByZero
  else .ok ⟨alignAxis (rasterPosDivisor cfg) position.x, alignAxis (rasterPosDivisor cfg) position.y⟩

/-- The function `alignNodeOnRaster` (lines 73-76). -/
def alignNodeOnRaster (cfg : Config) (node : DummyNode) : Except Fault DummyNode :=
  match alignOnRaster cfg node.position with
  | .ok p => .ok { node with position := p }
  | .error e => .error e

/-- One `while (size > 0)` loop of `calculateRasterNodeSize` (lines 444-453) run for at
most `fuel` iterations; `none` when the loop has not exited by then. -/
def rasterAxisLoop (cell padding : Int) : Nat → Int → Nat → Option Nat
  | 0, size, count => if size > 0 then none else some count
  | fuel + 1, size, count =>
    if size > 0 then
      let size1 := size - cell
      let size2 := if size1 > 0 then size1 - padding else size1
      rasterAxisLoop cell padding fuel size2 (count + 1)
    else some count

/-- One axis of `calculateRasterNodeSize`. The remaining size is an integer that either
drops by at least one in every iteration or never changes, so `size` iterations decide
whether the loop exits. -/
def rasterAxis (cell padding : Nat) (size : Int) : Except Fault Int :=
  match rasterAxisLoop cell padding size.toNat size 0 with
  | some count => .ok count
  | none => .error .diverges

/-- The function `calculateRasterNodeSize` (lines 439-467). -/
def calculateRasterNodeSize (cfg : Config) (node : DummyNode) : Except Fault Vec2i :=
  match rasterAxis cfg.cellWidth cfg.cellPadding node.size.x with
  | .error e => .error e
  | .ok sx =>
    match rasterAxis cfg.cellHeight cfg.cellPadding node.size.y with
    | .error e => .error e
    | .ok sy => .ok ⟨sx, sy⟩

/-- Inner statement of the loops of `buildHeatMap` (lines 183-187). -/
def incrementCell (left up : Int) (i j : Nat) (heatMap : Grid) : Except Fault Grid :=
  match heatMap.getValue (left + i) (up + j) with
  | .ok value => heatMap.setValue (left + i) (up + j) (value + 1)
  | .error e => .error e

/-- Body of the node loop of `buildHeatMap` (lines 163-189). -/
def buildHeatMapNode (cfg : Config) (atomarNodeWidth atomarNodeHeight heatMapWidth heatMapHeight : Int)
    (heatMap : Grid) (node : DummyNode) : Except Fault Grid :=
  let left := node.position.x.tdiv atomarNodeWidth + heatMapWidth.tdiv 2
  let up := node.position.y.tdiv atomarNodeHeight + heatMapHeight.tdiv 2
  match calculateRasterNodeSize cfg node with
  | .error e => .error e
  | .ok size =>
    let width := size.x
    let height := size.y
    if left + width > heatMapWidth ∨ left < 0 then .ok heatMap
    else if up + height > heatMapHeight ∨ up < 0 then .ok heatMap
    else forLoop width (fun i hm => forLoop height (fun j hm1 => incrementCell left up i j hm1) hm) heatMap

/-- The node loop of `buildHeatMap` (lines 161-190). -/
def buildHeatMapLoop (cfg : Config) (atomarNodeWidth atomarNodeHeight heatMapWidth heatMapHeight : Int) :
    List DummyNode → Grid → Except Fault Grid
  | [], heatMap => .ok heatMap
  | node :: rest, heatMap =>
    match buildHeatMapNode cfg atomarNodeWidth atomarNodeHeight heatMapWidth heatMapHeight heatMap node with
    | .ok hm => buildHeatMapLoop cfg atomarNodeWidth atomarNodeHeight heatMapWidth heatMapHeight rest hm
    | .error e => .error e

/-- Width of the heat map (line 156; line 157 for the height). The source computes it in
`size_t`; for the non-negative operands it is called with this is the truncating integer
quotient. -/
def heatMapExtent (maxNodeExtent : Int) (nodeCount : Nat) (atomarNodeExtent : Int) : Int :=
  ((maxNodeExtent * nodeCount).tdiv atomarNodeExtent) * 5

/-- The function `buildHeatMap` (lines 153-193). -/
def buildHeatMap (cfg : Config) (nodes : List DummyNode) (atomarNodeWidth atomarNodeHeight : Int)
    (maxNodeWidth maxNodeHeight : Int) : Except Fault Grid :=
  if atomarNodeWidth = 0 ∨ atomarNodeHeight = 0 then .error .divisionByZero
  else
    let heatMapWidth := heatMapExtent maxNodeWidth nodes.length atomarNodeWidth
    let heatMapHeight := heatMapExtent maxNodeHeight nodes.length atomarNodeHeight
    buildHeatMapLoop cfg atomarNodeWidth atomarNodeHeight heatMapWidth heatMapHeight nodes
      (Grid.create heatMapWidth heatMapHeight)

/-- Inner statement of the loops of `modifyHeatmapArea` (lines 309-324). -/
def modifyCell (leftUpperCorner : Vec2i) (modifier : Int) (i j : Nat) (heatMap : Grid) :
    Except Fault Grid :=
  let x := leftUpperCorner.x + i
  let y := leftUpperCorner.y + j
  if x < 0 ∨ x > (heatMap.columns : Int) - 1 then .ok heatMap
  else if y < 0 ∨ y > (heatMap.rows : Int) - 1 then .ok heatMap
  else
    match heatMap.getValue x y with
    | .ok value => heatMap.setValue x y (value + modifier)
    | .error e => .error e

/-- The function `modifyHeatmapArea` (lines 300-332). -/
def modifyHeatmapArea (heatMap : Grid) (leftUpperCorner size : Vec2i) (modifier : Int) :
    Except Fault Grid :=
  forLoop size.x (fun i hm => forLoop size.y (fun j hm1 => modifyCell leftUpperCorner modifier i j hm1) hm)
    heatMap

/-- The weight `std::max(1, (int)(n * 0.5 - std::abs(i + 1 - n * 0.5)))` (lines 347-348).
The source evaluates it in `double`, where halves of integers are exact: the value is
`(n - |2 * (i + 1) - n|) / 2` and the cast truncates it towards zero. -/
def magFactor (n : Int) (i : Nat) : Int :=
  max 1 ((n - |2 * ((i : Int) + 1) - n|).tdiv 2)

/-- Inner statement of the loops of `getHeatmapGradient` (lines 343-380). The state is the
accumulated gradient and the overlap flag. The test `val > 1` compares the `float`
conversion of the count with 1; the conversion is monotone and exact at 1, so it is the
test `1 < count`. -/
def gradientCell (fa : FloatArith) (heatMap : Grid) (leftUpperCorner size : Vec2i) (i j : Nat)
    (st : Vec2f fa × Bool) : Except Fault (Vec2f fa × Bool) :=
  let x := leftUpperCorner.x + i
  let y := leftUpperCorner.y + j
  let hMagFactor := magFactor size.x i
  let vMagFactor := magFactor size.y j
  if x < 1 ∨ x > (heatMap.columns : Int) - 2 then .ok st
  else if y < 1 ∨ y > (heatMap.rows : Int) - 2 then .ok st
  else
    match heatMap.getValue x y, heatMap.getValue (x + 1) y, heatMap.getValue (x - 1) y,
        heatMap.getValue x (y + 1), heatMap.getValue x (y - 1) with
    | .ok v, .ok vxP1, .ok vxM1, .ok vyP1, .ok vyM1 =>
      let val := fa.ofInt v
      let xP1 := fa.sqrt (fa.ofInt (((vxP1 : Int) * hMagFactor) % (cellModulus : Int)))
      let xM1 := fa.sqrt (fa.ofInt (((vxM1 : Int) * hMagFactor) % (cellModulus : Int)))
      let yP1 := fa.sqrt (fa.ofInt (((vyP1 : Int) * vMagFactor) % (cellModulus : Int)))
      let yM1 := fa.sqrt (fa.ofInt (((vyM1 : Int) * vMagFactor) % (cellModulus : Int)))
      let xOffset := fa.add (fa.sub xM1 val) (fa.sub val xP1)
      let yOffset := fa.add (fa.sub yM1 val) (fa.sub val yP1)
      .ok (⟨fa.add st.1.x xOffset, fa.add st.1.y yOffset⟩, if 1 < v then true else st.2)
    | _, _, _, _, _ => .error .outOfRange

/-- The function `getHeatmapGradient` (lines 334-385): the updated `outGradient` and the
returned flag. -/
def getHeatmapGradient (fa : FloatArith) (outGradient : Vec2f fa) (heatMap : Grid)
    (leftUpperCorner size : Vec2i) : Except Fault (Vec2f fa × Bool) :=
  forLoop size.x
    (fun i st => forLoop size.y (fun j st1 => gradientCell fa heatMap leftUpperCorner size i j st1) st)
    (outGradient, false)

/-- Modelled from the spec: `Vec2f::getLengthSquared` of the vector class, which is not part
of the source at hand. -/
def lengthSquared (fa : FloatArith) (v : Vec2f fa) : fa.F :=
  fa.add (fa.mul v.x v.x) (fa.mul v.y v.y)

/-- Modelled from the spec: `Vec2f::normalize` of the vector class, which is not part of the
source at hand: "the normalized current position", with the vector at the origin left as it
is (the case the code catches right after normalizing). -/
def normalize (fa : FloatArith) (v : Vec2f fa) : Vec2f fa :=
  let len := fa.sqrt (lengthSquared fa v)
  if fa.lt (fa.ofInt 0) len then ⟨fa.div v.x len, fa.div v.y len⟩ else v

/-- Modelled from the spec: `Vec2i::getLength` of the vector class, the Euclidean length as
a `float`. -/
def lengthI (fa : FloatArith) (v : Vec2i) : fa.F :=
  fa.sqrt (fa.add (fa.mul (fa.ofInt v.x) (fa.ofInt v.x)) (fa.mul (fa.ofInt v.y) (fa.ofInt v.y)))

/-- Modelled from the spec: `Vec2i * float` of the vector class, each component scaled in
`float` and converted back. -/
def scaleI (fa : FloatArith) (v : Vec2i) (s : fa.F) : Vec2i :=
  ⟨fa.toInt (fa.mul (fa.ofInt v.x) s), fa.toInt (fa.mul (fa.ofInt v.y) s)⟩

/-- Modelled from the spec: `Vec2i /= float` of the vector class, each component divided in
`float` and converted back. -/
def divideI (fa : FloatArith) (v : Vec2i) (s : fa.F) : Vec2i :=
  ⟨fa.toInt (fa.div (fa.ofInt v.x) s), fa.toInt (fa.div (fa.ofInt v.y) s)⟩

/-- The replacement gradient of lines 241-250. -/
def fallbackGradient (fa : FloatArith) (position : Vec2i) : Vec2f fa :=
  let g : Vec2f fa := normalize fa ⟨fa.ofInt position.x, fa.ofInt position.y⟩
  let g1 : Vec2f fa := if fa.le (lengthSquared fa g) fa.epsilon then ⟨g.x, fa.ofInt 1⟩ else g
  ⟨fa.mul g1.x (fa.ofInt (-1)), fa.mul g1.y (fa.ofInt (-1))⟩

/-- The clamping of an offset to `[-maxOffset, maxOffset]` (lines 264-280). -/
def clampOffset (offset maxOffset : Int) : Int :=
  if offset > maxOffset then maxOffset
  else if offset < -maxOffset then -maxOffset
  else offset

/-- State of the node loop of `resolveOverlap`: the heat map and the `overlap` flag. -/
structure OverlapState where
  heatMap : Grid
  overlap : Bool

/-- Body of the node loop of `resolveOverlap` (lines 214-295) for one node. -/
def resolveOverlapNode (fa : FloatArith) (cfg : Config) (divisorWidth divisorHeight : Int)
    (st : OverlapState) (node : DummyNode) : Except Fault (DummyNode × OverlapState) :=
  let heatMapWidth : Int := st.heatMap.columns
  let heatMapHeight : Int := st.heatMap.rows
  if divisorWidth = 0 ∨ divisorHeight = 0 then .error .divisionByZero
  else
    let nodePos : Vec2i := ⟨node.position.x.tdiv divisorWidth + heatMapWidth.tdiv 2,
      node.position.y.tdiv divisorHeight + heatMapHeight.tdiv 2⟩
    match calculateRasterNodeSize cfg node with
    | .error e => .error e
    | .ok nodeSize =>
      if nodePos.x + nodeSize.x > heatMapWidth ∨ nodePos.x < 0 then .ok (node, st)
      else if nodePos.y + nodeSize.y > heatMapHeight ∨ nodePos.y < 0 then .ok (node, st)
      else
        match getHeatmapGradient fa ⟨fa.ofInt 0, fa.ofInt 0⟩ st.heatMap nodePos nodeSize with
        | .error e => .error e
        | .ok (grad0, found) =>
          let overlap1 := if found then true else st.overlap
          let grad : Vec2f fa :=
            if fa.le (lengthSquared fa grad0) fa.epsilon && overlap1 then fallbackGradient fa node.position
            else grad0
          match modifyHeatmapArea st.heatMap nodePos nodeSize (-1) with
          | .error e => .error e
          | .ok hm1 =>
            let xOffset := clampOffset (fa.toInt (fa.mul grad.x (fa.ofInt divisorWidth))) (2 * divisorWidth)
            let yOffset := clampOffset (fa.toInt (fa.mul grad.y (fa.ofInt divisorHeight))) (2 * divisorHeight)
            let moved : DummyNode :=
              { node with position := ⟨node.position.x + xOffset, node.position.y + yOffset⟩ }
            match alignNodeOnRaster cfg moved with
            | .error e => .error e
            | .ok node1 =>
              let nodePos1 : Vec2i := ⟨node1.position.x.tdiv divisorWidth + heatMapWidth.tdiv 2,
                node1.position.y.tdiv divisorHeight + heatMapHeight.tdiv 2⟩
              match modifyHeatmapArea hm1 nodePos1 nodeSize 1 with
              | .error e => .error e
              | .ok hm2 =>
                match getHeatmapGradient fa grad hm2 nodePos1 nodeSize with
                | .error e => .error e
                | .ok (_, found1) => .ok (node1, ⟨hm2, if found1 then true else overlap1⟩)

/-- The node loop of `resolveOverlap` (line 212): one pass over the list, in order. -/
def resolveOverlapPass (fa : FloatArith) (cfg : Config) (divisorWidth divisorHeight : Int) :
    List DummyNode → OverlapState → Except Fault (List DummyNode × OverlapState)
  | [], st => .ok ([], st)
  | node :: rest, st =>
    match resolveOverlapNode fa cfg divisorWidth divisorHeight st node with
    | .error e => .error e
    | .ok (node1, st1) =>
      match resolveOverlapPass fa cfg divisorWidth divisorHeight rest st1 with
      | .error e => .error e
      | .ok (rest1, st2) => .ok (node1 :: rest1, st2)

/-- The iteration bound `maxIterations` of `resolveOverlap` (line 203). -/
def maxIterations : Nat := 15

/-- The `while (overlap && iterationCount < maxIterations)` loop of `resolveOverlap`
(lines 205-297); `remaining` is `maxIterations - iterationCount`. The result carries the
number of passes that were run. -/
def resolveOverlapLoop (fa : FloatArith) (cfg : Config) (divisorWidth divisorHeight : Int) :
    Nat → List DummyNode → OverlapState → Nat → Except Fault (List DummyNode × OverlapState × Nat)
  | 0, nodes, st, passes => .ok (nodes, st, passes)
  | remaining + 1, nodes, st, passes =>
    if st.overlap then
      match resolveOverlapPass fa cfg divisorWidth divisorHeight nodes ⟨st.heatMap, false⟩ with
      | .error e => .error e
      | .ok (nodes1, st1) =>
        resolveOverlapLoop fa cfg divisorWidth divisorHeight remaining nodes1 st1 (passes + 1)
    else .ok (nodes, st, passes)

/-- The function `resolveOverlap` (lines 195-298): the node list and heat map it leaves
behind, and the number of passes. -/
def resolveOverlap (fa : FloatArith) (cfg : Config) (nodes : List DummyNode) (heatMap : Grid)
    (divisorWidth divisorHeight : Int) : Except Fault (List DummyNode × OverlapState × Nat) :=
  resolveOverlapLoop fa cfg divisorWidth divisorHeight maxIterations nodes ⟨heatMap, true⟩ 0

/-- The function `resolveOutliers` (lines 125-151). -/
def resolveOutliers (fa : FloatArith) (nodes : List DummyNode) (centerPoint : Vec2i) :
    List DummyNode :=
  let maxDist := nodes.foldl
    (fun (m : fa.F) node =>
      let toCenterOfMass : Vec2i := ⟨centerPoint.x - node.position.x, centerPoint.y - node.position.y⟩
      if fa.lt m (lengthI fa toCenterOfMass) then lengthI fa toCenterOfMass else m)
    (fa.ofInt 0)
  if fa.eq maxDist (fa.ofInt 0) then nodes
  else
    nodes.map fun node =>
      let toCenterOfMass : Vec2i := ⟨centerPoint.x - node.position.x, centerPoint.y - node.position.y⟩
      let dist := lengthI fa toCenterOfMass
      let distFactor := fa.sqrt (fa.div dist maxDist)
      let pull := scaleI fa toCenterOfMass distFactor
      { node with position := ⟨node.position.x + pull.x, node.position.y + pull.y⟩ }

/-- Local variables of the first loop of `doPostprocessing` (lines 21-26). -/
structure MassState (fa : FloatArith) where
  divisorWidth : Int
  divisorHeight : Int
  maxNodeWidth : Int
  maxNodeHeight : Int
  centerOfMass : Vec2i
  totalMass : fa.F

/-- Body of the first loop of `doPostprocessing` (lines 30-51). -/
def massStep (fa : FloatArith) (st : MassState fa) (node : DummyNode) : MassState fa :=
  let divisorWidth := if node.size.x < st.divisorWidth then node.size.x else st.divisorWidth
  let divisorHeight := if node.size.y < st.divisorHeight then node.size.y else st.divisorHeight
  let maxNodeWidth := if node.size.x > st.maxNodeWidth then node.size.x else st.maxNodeWidth
  let maxNodeHeight :=
    if node.size.x > st.maxNodeWidth then st.maxNodeHeight
    else if node.size.y > st.maxNodeHeight then node.size.y
    else st.maxNodeHeight
  let nodeMass := fa.ofInt (node.size.x * node.size.y)
  let weighted := scaleI fa node.position nodeMass
  { divisorWidth := divisorWidth
    divisorHeight := divisorHeight
    maxNodeWidth := maxNodeWidth
    maxNodeHeight := maxNodeHeight
    centerOfMass := ⟨st.centerOfMass.x + weighted.x, st.centerOfMass.y + weighted.y⟩
    totalMass := fa.add st.totalMass nodeMass }

/-- The first loop of `doPostprocessing` (lines 21-52). -/
def massLoop (fa : FloatArith) (nodes : List DummyNode) : MassState fa :=
  nodes.foldl (massStep fa) ⟨999999, 999999, 0, 0, ⟨0, 0⟩, fa.ofInt 0⟩

/-- The loop of lines 63-66: every node is aligned, in order. -/
def alignAll (cfg : Config) : List DummyNode → Except Fault (List DummyNode)
  | [] => .ok []
  | node :: rest =>
    match alignNodeOnRaster cfg node with
    | .error e => .error e
    | .ok node1 =>
      match alignAll cfg rest with
      | .error e => .error e
      | .ok rest1 => .ok (node1 :: rest1)

/-- The function `doPostprocessing` (lines 9-71): the node list it leaves behind. -/
def doPostprocessing (fa : FloatArith) (cfg : Config) (nodes : List DummyNode) :
    Except Fault (List DummyNode) :=
  if nodes.length < 2 then .ok nodes
  else
    let st := massLoop fa nodes
    let centerOfMass := divideI fa st.centerOfMass st.totalMass
    let divisorWidth : Int := (cfg.cellWidth : Int) + (cfg.cellPadding : Int)
    let divisorHeight : Int := (cfg.cellHeight : Int) + (cfg.cellPadding : Int)
    let pulled := resolveOutliers fa nodes centerOfMass
    match alignAll cfg pulled with
    | .error e => .error e
    | .ok aligned =>
      match buildHeatMap cfg aligned divisorWidth divisorHeight st.maxNodeWidth st.maxNodeHeight with
      | .error e => .error e
      | .ok heatMap =>
        match resolveOverlap fa cfg aligned heatMap divisorWidth divisorHeight with
        | .error e => .error e
        | .ok (result, _, _) => .ok result

/-- Integer square root by search from below; `fuel` bounds the candidates tried. -/
def searchSqrt (n : Nat) : Nat → Nat → Nat
  | 0, k => k
  | fuel + 1, k => if (k + 1) * (k + 1) ≤ n then searchSqrt n fuel (k + 1) else k

/-- An arithmetic on the integers with the interface of `FloatArith`: sums, differences and
products are exact, quotients and roots are truncated. It agrees with `float` wherever the
`float` results are themselves integers of small magnitude. -/
def intArith : FloatArith where
  F := Int
  ofInt := fun z => z
  add := fun a b => a + b
  sub := fun a b => a - b
  mul := fun a b => a * b
  div := fun a b => a.tdiv b
  sqrt := fun a => (searchSqrt a.toNat a.toNat 0 : Nat)
  toInt := fun a => a
  lt := fun a b => decide (a < b)
  le := fun a b => decide (a ≤ b)
  eq := fun a b => decide (a = b)
  epsilon := 0

/-- The closed form as the specification words it: the least number `n` of cells such that
`n` cells and the `n - 1` paddings between them cover the size, `⌈(s + p) / (w + p)⌉` for a
positive size and 0 otherwise. -/
def paddingAdjustedCells (s : Int) (w p : Nat) : Int :=
  if s > 0 then ⌈((s : ℚ) + (p : ℚ)) / ((w : ℚ) + (p : ℚ))⌉ else 0

/-- The grid after `modifier` has been added, as `unsigned int`, to the cells selected by
`sel`. -/
def Grid.bump (g : Grid) (modifier : Int) (sel : Nat → Nat → Bool) : Grid :=
  { g with cells := fun a b =>
      if sel a b then (((g.cells a b : Int) + modifier) % (cellModulus : Int)).toNat
      else g.cells a b }

/-- The grid after `modifier` has been added to the cell at `(x, y)`, if that is a cell of
the grid. -/
def Grid.bumpCell (g : Grid) (x y : Int) (modifier : Int) : Grid :=
  if g.inRange x y then
    { g with cells := fun a b =>
        if a = x.toNat ∧ b = y.toNat then
          (((g.cells a b : Int) + modifier) % (cellModulus : Int)).toNat
        else g.cells a b }
  else g

/-- The cells of a grid with the given extents that lie in the first `w` columns and `h`
rows of the footprint with the given corner. -/
def coveredBy (columns rows : Nat) (corner : Vec2i) (w h : Int) (a b : Nat) : Bool :=
  decide (corner.x ≤ (a : Int) ∧ (a : Int) < corner.x + w ∧ corner.y ≤ (b : Int) ∧
    (b : Int) < corner.y + h ∧ a < columns ∧ b < rows)

/-- A node whose position is a multiple of the raster pitch on both axes. -/
def Aligned (cfg : Config) (node : DummyNode) : Prop :=
  rasterPosDivisor cfg ∣ node.position.x ∧ rasterPosDivisor cfg ∣ node.position.y

/-- Float arithmetic that is exact on small integers. IEEE single precision with rounding to
nearest has these properties, equality being numeric equality (the two zeros are one value):
every integer of magnitude at most `2 ^ 24` is a `float`; a sum, difference, product,
quotient or square root whose exact value is such an integer is computed exactly; the
conversions between such integers and `float` lose nothing; comparisons are the comparisons
of the values; and an integer is at most `0.000001f` exactly when it is at most 0. -/
structure ExactOnIntegers (fa : FloatArith) : Prop where
  add_ofInt : ∀ a b : Int, |a| ≤ 16777216 → |b| ≤ 16777216 → |a + b| ≤ 16777216 →
    fa.add (fa.ofInt a) (fa.ofInt b) = fa.ofInt (a + b)
  sub_ofInt : ∀ a b : Int, |a| ≤ 16777216 → |b| ≤ 16777216 → |a - b| ≤ 16777216 →
    fa.sub (fa.ofInt a) (fa.ofInt b) = fa.ofInt (a - b)
  mul_ofInt : ∀ a b : Int, |a| ≤ 16777216 → |b| ≤ 16777216 → |a * b| ≤ 16777216 →
    fa.mul (fa.ofInt a) (fa.ofInt b) = fa.ofInt (a * b)
  div_ofInt : ∀ a b : Int, b ≠ 0 → |b| ≤ 16777216 → |a * b| ≤ 16777216 →
    fa.div (fa.ofInt (a * b)) (fa.ofInt b) = fa.ofInt a
  sqrt_ofInt : ∀ n : Int, 0 ≤ n → n * n ≤ 16777216 → fa.sqrt (fa.ofInt (n * n)) = fa.ofInt n
  toInt_ofInt : ∀ a : Int, |a| ≤ 16777216 → fa.toInt (fa.ofInt a) = a
  lt_ofInt : ∀ a b : Int, |a| ≤ 16777216 → |b| ≤ 16777216 →
    fa.lt (fa.ofInt a) (fa.ofInt b) = decide (a < b)
  le_ofInt : ∀ a b : Int, |a| ≤ 16777216 → |b| ≤ 16777216 →
    fa.le (fa.ofInt a) (fa.ofInt b) = decide (a ≤ b)
  eq_ofInt : ∀ a b : Int, |a| ≤ 16777216 → |b| ≤ 16777216 →
    fa.eq (fa.ofInt a) (fa.ofInt b) = decide (a = b)
  le_epsilon : ∀ a : Int, |a| ≤ 16777216 → fa.le (fa.ofInt a) fa.epsilon = decide (a ≤ 0)

/-- The heat map of the scenario of two coincident nodes after `buildHeatMap`: a 5 by 5
grid whose centre cell is covered twice. -/
def scenarioHeatMap : Grid :=
  ((Grid.create 5 5).bump 1 (coveredBy 5 5 ⟨2, 2⟩ 1 1)).bump 1 (coveredBy 5 5 ⟨2, 2⟩ 1 1)

/-- The heat map after a unit footprint has been taken from one cell and put on another. -/
def scenarioMove (hm : Grid) (fromPos toPos : Vec2i) : Grid :=
  (hm.bump (-1) (coveredBy 5 5 fromPos 1 1)).bump 1 (coveredBy 5 5 toPos 1 1)

/-- The cell `(x, y)` has all four neighbours in the grid and holds a count above 1. -/
def sampledOverlap (heatMap : Grid) (x y : Int) : Prop :=
  1 ≤ x ∧ x ≤ (heatMap.columns : Int) - 2 ∧ 1 ≤ y ∧ y ≤ (heatMap.rows : Int) - 2 ∧
    1 < heatMap.cells x.toNat y.toNat

/-- A 3 by 3 grid whose corner cell `(0, 0)` is covered twice. -/
def cornerOverlapGrid : Grid :=
  ⟨3, 3, fun a b => if a = 0 ∧ b = 0 then 2 else 0⟩

/-- The integer arithmetic `intArith`, except that a quotient by zero is `q`. The quotient by
zero is what no property of float arithmetic on integers fixes; `q` stands for the integer
that its conversion back yields. -/
def divZeroArith (q : Int) : FloatArith where
  F := Int
  ofInt := fun z => z
  add := fun a b => a + b
  sub := fun a b => a - b
  mul := fun a b => a * b
  div := fun a b => if b = 0 then q else a.tdiv b
  sqrt := fun a => (searchSqrt a.toNat a.toNat 0 : Nat)
  toInt := fun a => a
  lt := fun a b => decide (a < b)
  le := fun a b => decide (a ≤ b)
  eq := fun a b => decide (a = b)
  epsilon := 0

/-- The float operations of `heatMapRayCast` beyond those of `FloatArith`: `std::abs` on a
`float` and the literal `0.0000000001f`. -/
structure RayCastArith extends FloatArith where
  abs : F → F
  tiny : F

/-- The `do ... while (hit)` loop of `heatMapRayCast` (lines 418-434) run for at most `fuel`
iterations; `none` when the loop is still running after them. The cell is addressed by the
positions converted to integers. -/
def rayCastLoop (ra : RayCastArith) (heatMap : Grid) (xOffset yOffset : ra.F) (minValue : Nat) :
    Nat → ra.F → ra.F → Vec2f ra.toFloatArith → Except Fault (Option (Vec2f ra.toFloatArith))
  | 0, _, _, _ => .ok none
  | fuel + 1, posX, posY, length =>
    match heatMap.getValue (ra.toInt posX) (ra.toInt posY) with
    | .error e => .error e
    | .ok value =>
      if value ≥ minValue then
        rayCastLoop ra heatMap xOffset yOffset minValue fuel (ra.add posX xOffset)
          (ra.add posY yOffset) ⟨ra.add length.x xOffset, ra.add length.y yOffset⟩
      else .ok (some length)

/-- The function `heatMapRayCast` (lines 387-437), its loop bounded by `fuel`. -/
def heatMapRayCast (ra : RayCastArith) (fuel : Nat) (heatMap : Grid)
    (startPosition direction : Vec2f ra.toFloatArith) (minValue : Nat) :
    Except Fault (Option (Vec2f ra.toFloatArith)) :=
  let xOffset := if ra.lt ra.tiny (ra.abs direction.x) then ra.div direction.x (ra.abs direction.x)
    else ra.ofInt 0
  let yOffset := if ra.lt ra.tiny (ra.abs direction.y) then ra.div direction.y (ra.abs direction.y)
    else ra.ofInt 0
  if ra.lt startPosition.x (ra.ofInt 1) ||
      ra.lt (ra.ofInt ((heatMap.columns : Int) - 2)) startPosition.x then
    .ok (some ⟨ra.ofInt 0, ra.ofInt 0⟩)
  else if ra.lt startPosition.y (ra.ofInt 1) ||
      ra.lt (ra.ofInt ((heatMap.rows : Int) - 2)) startPosition.y then
    .ok (some ⟨ra.ofInt 0, ra.ofInt 0⟩)
  else
    rayCastLoop ra heatMap xOffset yOffset minValue fuel (ra.add startPosition.x xOffset)
      (ra.add startPosition.y yOffset) ⟨ra.ofInt 0, ra.ofInt 0⟩

/-- The integer arithmetic `intArith` with the absolute value and 0 for the tiny literal. -/
def intRayCastArith : RayCastArith where
  toFloatArith := intArith
  abs := fun (a : Int) => ((a.natAbs : Nat) : Int)
  tiny := (0 : Int)

/-- A 3 by 3 grid in which every cell is covered once. -/
def coveredGrid : Grid :=
  ⟨3, 3, fun _ _ => 1⟩

/-- Grid position of a node in a grid of `W` columns and `H` rows (lines 163-164 and
215-216). -/
def gridPos (dW dH : Int) (W H : Nat) (node : DummyNode) : Vec2i :=
  ⟨node.position.x.tdiv dW + (W : Int).tdiv 2, node.position.y.tdiv dH + (H : Int).tdiv 2⟩

/-- Whether the cell `(a, b)` is a cell of the grid that the footprint of the node covers. -/
def nodeCovers (cfg : Config) (dW dH : Int) (W H : Nat) (node : DummyNode) (a b : Nat) : Bool :=
  match calculateRasterNodeSize cfg node with
  | .ok size => coveredBy W H (gridPos dW dH W H node) size.x size.y a b
  | .error _ => false

/-- Whether the footprint of the node lies fully inside the grid, so that neither
`buildHeatMap` nor `resolveOverlap` skips the node. -/
def nodeInside (cfg : Config) (dW dH : Int) (W H : Nat) (node : DummyNode) : Bool :=
  match calculateRasterNodeSize cfg node with
  | .ok size =>
    decide (0 ≤ (gridPos dW dH W H node).x ∧ (gridPos dW dH W H node).x + size.x ≤ W ∧
      0 ≤ (gridPos dW dH W H node).y ∧ (gridPos dW dH W H node).y + size.y ≤ H)
  | .error _ => false

/-- Number of nodes of the list that lie fully inside the grid and cover the cell. -/
def insideCount (cfg : Config) (dW dH : Int) (W H : Nat) (nodes : List DummyNode) (a b : Nat) :
    Nat :=
  (nodes.map fun node =>
    if nodeInside cfg dW dH W H node && nodeCovers cfg dW dH W H node a b then 1 else 0).sum

/-- Number of nodes of the list whose footprint covers the cell. -/
def coverCount (cfg : Config) (dW dH : Int) (W H : Nat) (nodes : List DummyNode) (a b : Nat) :
    Nat :=
  (nodes.map fun node => if nodeCovers cfg dW dH W H node a b then 1 else 0).sum

/-- The value an `int` holds after a result computed in 32 bits has wrapped around: the
representative of `z` modulo `2 ^ 32` in the range `-2 ^ 31 .. 2 ^ 31 - 1`. It is also the
conversion of an `unsigned int` to `int`. -/
def wrapInt32 (z : Int) : Int :=
  (z + 2147483648) % 4294967296 - 2147483648

/-- The divisor `rasterPosDivisor` of `alignOnRaster` (line 80) as the `int` the source
holds: the sum `s_cellWidth + s_cellPadding` is formed in `unsigned int` and converted. -/
def rasterPosDivisor32 (cfg : Config) : Int :=
  wrapInt32 ((cfg.cellWidth : Int) + (cfg.cellPadding : Int))

/-- One axis of `alignOnRaster` (lines 82-100 for x, 102-120 for y) in 32-bit `int`
arithmetic: the increments of `t` and the product `t * rasterPosDivisor` wrap around. -/
def alignAxis32 (d : Int) (p : Int) : Int :=
  if p.tmod d ≠ 0 then
    let t := p.tdiv d
    let r := p.tmod d
    let t :=
      if |r| > d.tdiv 2 then
        if t ≠ 0 then wrapInt32 (t + t.tdiv |t|)
        else if r ≠ 0 then wrapInt32 (t + r.tdiv |r|)
        else t
      else t
    wrapInt32 (t * d)
  else p

/-- The function `alignOnRaster` (lines 78-123) in 32-bit `int` arithmetic. Both axes use the
width-based divisor. The division faults for a zero divisor, and for the divisor `-1` at the
coordinate `-2 ^ 31`, whose quotient is not an `int`. -/
def alignOnRaster32 (cfg : Config) (position : Vec2i) : Except Fault Vec2i :=
  if rasterPosDivisor32 cfg = 0 then .error .divisionByZero
  else if rasterPosDivisor32 cfg = -1 ∧
      (position.x = -2147483648 ∨ position.y = -2147483648) then .error .divisionByZero
  else .ok ⟨alignAxis32 (rasterPosDivisor32 cfg) position.x,
    alignAxis32 (rasterPosDivisor32 cfg) position.y⟩

/-- The multiple of the pitch `d` that `alignOnRaster` computes for the coordinate `p`
(lines 99 and 119) is an `int`: the product `t * rasterPosDivisor` does not overflow. -/
abbrev alignFits (d p : Int) : Prop :=
  -2147483648 ≤ alignAxis d p ∧ alignAxis d p ≤ 2147483647

/-- One `while (size > 0)` loop of `calculateRasterNodeSize` (lines 444-453) in the
arithmetic of the source, run for at most `fuel` iterations; `none` when the loop has not
exited by then. `size.x - s_cellWidth` subtracts an `unsigned int` from an `int`: the
difference is formed modulo `2 ^ 32` and converted back to `int`, and so is the difference
with `s_cellPadding`. The count is kept exact: a loop that exits does so within
`2 ^ 31 - 1` iterations, so the `int` count of the source does not wrap. -/
def rasterAxisLoop32 (cell padding : Int) : Nat → Int → Nat → Option Nat
  | 0, size, count => if size > 0 then none else some count
  | fuel + 1, size, count =>
    if size > 0 then
      let size1 := wrapInt32 (size - cell)
      let size2 := if size1 > 0 then wrapInt32 (size1 - padding) else size1
      rasterAxisLoop32 cell padding fuel size2 (count + 1)
    else some count

/-- One axis of `calculateRasterNodeSize` in the arithmetic of the source. The remaining
size is one of the `2 ^ 31 - 1` positive `int` values while the loop runs and the next value
depends on the current one only, so a loop that has not exited after `2 ^ 31` iterations
never exits. -/
def rasterAxis32 (cell padding : Nat) (size : Int) : Except Fault Int :=
  match rasterAxisLoop32 cell padding 2147483648 size 0 with
  | some count => .ok count
  | none => .error .diverges

/-- The function `calculateRasterNodeSize` (lines 439-467) in the arithmetic of the
source. -/
def calculateRasterNodeSize32 (cfg : Config) (node : DummyNode) : Except Fault Vec2i :=
  match rasterAxis32 cfg.cellWidth cfg.cellPadding node.size.x with
  | .error e => .error e
  | .ok sx =>
    match rasterAxis32 cfg.cellHeight cfg.cellPadding node.size.y with
    | .error e => .error e
    | .ok sy => .ok ⟨sx, sy⟩

theorem tmod_neg_left (a b : Int) : (-a).tmod b = -(a.tmod b) := by
  rw [Int.tmod_def, Int.tmod_def, Int.neg_tdiv]; ring

theorem tdiv_abs_self_of_pos {t : Int} (h : 0 < t) : t.tdiv |t| = 1 := by
  rw [abs_of_pos h]; exact Int.tdiv_self (ne_of_gt h)

/-- For a non-negative coordinate the alignment is the rounding of the Euclidean quotient. -/
theorem alignAxis_of_nonneg {d p : Int} (hd : 0 < d) (hp : 0 ≤ p) :
    alignAxis d p = if p % d > d / 2 then (p / d + 1) * d else p / d * d := by
  have hq : p.tdiv d = p / d := Int.tdiv_eq_ediv hp hd.le
  have hr : p.tmod d = p % d := Int.tmod_eq_emod hp hd.le
  have h2 : d.tdiv 2 = d / 2 := Int.tdiv_eq_ediv hd.le (by decide)
  have hr0 : 0 ≤ p % d := Int.emod_nonneg p (ne_of_gt hd)
  have hq0 : 0 ≤ p / d := Int.ediv_nonneg hp hd.le
  have hsum : d * (p / d) + p % d = p := Int.ediv_add_emod p d
  unfold alignAxis
  simp only [hq, hr, h2, abs_of_nonneg hr0]
  by_cases hz : p % d = 0
  · have hle : ¬ (0 > d / 2) := by omega
    have : p / d * d = p := by rw [hz] at hsum; linarith
    simp [hz, hle, this]
  · simp only [ne_eq, hz, not_false_eq_true, if_true]
    by_cases hbig : p % d > d / 2
    · simp only [hbig, if_true]
      by_cases hqz : p / d = 0
      · have hrpos : 0 < p % d := lt_of_le_of_ne hr0 (Ne.symm hz)
        simp [hqz, Int.tdiv_self hz]
      · have hqpos : 0 < p / d := lt_of_le_of_ne hq0 (Ne.symm hqz)
        simp [hqz, tdiv_abs_self_of_pos hqpos]
    · simp [hbig]

/-- Alignment commutes with negation: the code treats the two signs symmetrically. -/
theorem alignAxis_neg (d p : Int) : alignAxis d (-p) = -alignAxis d p := by
  unfold alignAxis
  simp only [tmod_neg_left, Int.neg_tdiv, abs_neg, neg_ne_zero, ne_eq]
  by_cases hz : p.tmod d = 0
  · simp [hz]
  · simp only [hz, not_false_eq_true, if_true]
    by_cases hbig : |p.tmod d| > d.tdiv 2
    · simp only [hbig, if_true]
      by_cases ht : p.tdiv d = 0
      · simp [ht]
      · simp only [ht, not_false_eq_true, if_true]; ring
    · simp only [hbig, if_false]; ring

theorem alignAxis_dvd {d : Int} (p : Int) : d ∣ alignAxis d p := by
  unfold alignAxis
  by_cases hz : p.tmod d = 0
  · simpa [hz] using Int.dvd_of_tmod_eq_zero hz
  · simp only [ne_eq, hz, not_false_eq_true, if_true]
    exact Dvd.intro_left _ rfl

theorem alignAxis_close_of_nonneg {d p : Int} (hd : 0 < d) (hp : 0 ≤ p) :
    2 * |alignAxis d p - p| ≤ d := by
  rw [alignAxis_of_nonneg hd hp]
  have hr0 : 0 ≤ p % d := Int.emod_nonneg p (ne_of_gt hd)
  have hrd : p % d < d := Int.emod_lt_of_pos p hd
  have hsum : d * (p / d) + p % d = p := Int.ediv_add_emod p d
  by_cases hbig : p % d > d / 2
  · have h1 : d < 2 * (p % d) + 1 := by omega
    have e : (p / d + 1) * d - p = d - p % d := by linarith
    simp only [hbig, if_true, e]
    rw [abs_of_nonneg (by linarith)]
    linarith
  · have h1 : 2 * (p % d) ≤ d := by omega
    have e : p / d * d - p = -(p % d) := by linarith
    simp only [hbig, if_false, e, abs_neg]
    rw [abs_of_nonneg hr0]
    exact h1

theorem alignAxis_close {d : Int} (hd : 0 < d) (p : Int) : 2 * |alignAxis d p - p| ≤ d := by
  rcases le_total 0 p with hp | hp
  · exact alignAxis_close_of_nonneg hd hp
  · have h := alignAxis_close_of_nonneg hd (neg_nonneg.mpr hp)
    rw [alignAxis_neg] at h
    have e : -alignAxis d p - -p = -(alignAxis d p - p) := by ring
    rwa [e, abs_neg] at h

theorem alignOnRaster_ok {cfg : Config} (h : 0 < rasterPosDivisor cfg) (P : Vec2i) :
    alignOnRaster cfg P =
      .ok ⟨alignAxis (rasterPosDivisor cfg) P.x, alignAxis (rasterPosDivisor cfg) P.y⟩ := by
  unfold alignOnRaster
  simp [ne_of_gt h]

theorem alignAxis_tie_of_nonneg {d x : Int} (hd : 0 < d) (hx : 0 ≤ x)
    (htie : |x.tmod d| = d / 2) : alignAxis d x = x.tdiv d * d ∧ |alignAxis d x| + d / 2 = |x| := by
  have hq : x.tdiv d = x / d := Int.tdiv_eq_ediv hx hd.le
  have hr : x.tmod d = x % d := Int.tmod_eq_emod hx hd.le
  have hr0 : 0 ≤ x % d := Int.emod_nonneg x (ne_of_gt hd)
  have hq0 : 0 ≤ x / d := Int.ediv_nonneg hx hd.le
  have hsum : d * (x / d) + x % d = x := Int.ediv_add_emod x d
  rw [hr, abs_of_nonneg hr0] at htie
  have hnot : ¬ (x % d > d / 2) := by omega
  have hval : alignAxis d x = x / d * d := by
    rw [alignAxis_of_nonneg hd hx]; simp [hnot]
  have hnn : 0 ≤ x / d * d := mul_nonneg hq0 hd.le
  refine ⟨by rw [hval, hq], ?_⟩
  rw [hval, abs_of_nonneg hnn, abs_of_nonneg hx]
  linarith

theorem rasterAxisLoop_spec (cell padding : Nat) (hpos : 0 < cell + padding) :
    ∀ (fuel : Nat) (size : Int) (count : Nat), size.toNat ≤ fuel →
      ∃ n : Nat, rasterAxisLoop cell padding fuel size count = some (count + n) ∧
        size ≤ (n : Int) * ((cell : Int) + padding) ∧
        (0 < n → ((n : Int) - 1) * ((cell : Int) + padding) < size) := by
  intro fuel
  induction fuel with
  | zero =>
    intro size count h
    have hs : ¬ size > 0 := by omega
    exact ⟨0, by simp [rasterAxisLoop, hs], by simpa using not_lt.mp hs, by simp⟩
  | succ fuel ih =>
    intro size count h
    by_cases hs : size > 0
    · by_cases h1 : size - (cell : Int) > 0
      · obtain ⟨n, hn, hup, hlow⟩ := ih (size - cell - padding) (count + 1) (by omega)
        refine ⟨n + 1, ?_, ?_, ?_⟩
        · simp only [rasterAxisLoop, hs, h1, if_true]
          rw [hn]; congr 1; omega
        · push_cast; linarith
        · intro _
          rcases Nat.eq_zero_or_pos n with hz | hp
          · subst hz; simpa using hs
          · have := hlow hp
            push_cast; linarith
      · obtain ⟨n, hn, hup, hlow⟩ := ih (size - cell) (count + 1) (by omega)
        have hn0 : n = 0 := by
          rcases Nat.eq_zero_or_pos n with hz | hp
          · exact hz
          · exfalso
            have h2 := hlow hp
            have h3 : (0 : Int) ≤ ((n : Int) - 1) * ((cell : Int) + padding) :=
              mul_nonneg (by omega) (by omega)
            omega
        subst hn0
        refine ⟨1, ?_, ?_, ?_⟩
        · simp only [rasterAxisLoop, hs, h1, if_true, if_false]
          rw [hn]
        · push_cast; omega
        · intro _; simpa using hs
    · exact ⟨0, by simp [rasterAxisLoop, hs], by simpa using not_lt.mp hs, by simp⟩

/-- The cell count of one axis: the loop exits, and its count `n` is determined by
`(n - 1) * (cell + padding) < size ≤ n * (cell + padding)`. -/
theorem rasterAxis_spec (cell padding : Nat) (hpos : 0 < cell + padding) (size : Int) :
    ∃ n : Nat, rasterAxis cell padding size = .ok (n : Int) ∧
      size ≤ (n : Int) * ((cell : Int) + padding) ∧
      (0 < n → ((n : Int) - 1) * ((cell : Int) + padding) < size) := by
  obtain ⟨n, hn, hup, hlow⟩ := rasterAxisLoop_spec cell padding hpos size.toNat size 0 le_rfl
  refine ⟨n, ?_, hup, hlow⟩
  unfold rasterAxis
  rw [hn]; simp

theorem rasterAxis_eq_ceil (cell padding : Nat) (hpos : 0 < cell + padding) (size : Int)
    (hs : 0 ≤ size) :
    rasterAxis cell padding size = .ok ⌈(size : ℚ) / ((cell : ℚ) + (padding : ℚ))⌉ := by
  obtain ⟨n, hn, hup, hlow⟩ := rasterAxis_spec cell padding hpos size
  rw [hn]
  congr 1
  symm
  have hD : (0 : ℚ) < (cell : ℚ) + (padding : ℚ) := by exact_mod_cast hpos
  rw [Int.ceil_eq_iff]
  constructor
  · rw [lt_div_iff₀ hD]
    rcases Nat.eq_zero_or_pos n with hz | hp
    · subst hz
      have : (0 : ℚ) ≤ (size : ℚ) := by exact_mod_cast hs
      push_cast; nlinarith
    · have := hlow hp
      have h2 : (((n : Int) - 1) * ((cell : Int) + padding) : ℚ) < (size : ℚ) := by exact_mod_cast this
      push_cast at h2 ⊢; linarith
  · rw [div_le_iff₀ hD]
    have h2 : (size : ℚ) ≤ ((n : Int) * ((cell : Int) + padding) : ℚ) := by exact_mod_cast hup
    push_cast at h2 ⊢; linarith

theorem alignAxis_tie {d x : Int} (hd : 0 < d) (htie : |x.tmod d| = d / 2) :
    alignAxis d x = x.tdiv d * d ∧ |alignAxis d x| + d / 2 = |x| := by
  rcases le_total 0 x with hx | hx
  · exact alignAxis_tie_of_nonneg hd hx htie
  · have htie1 : |(-x).tmod d| = d / 2 := by rw [tmod_neg_left, abs_neg]; exact htie
    obtain ⟨h1, h2⟩ := alignAxis_tie_of_nonneg hd (neg_nonneg.mpr hx) htie1
    rw [alignAxis_neg, Int.neg_tdiv] at h1
    rw [alignAxis_neg, abs_neg, abs_neg] at h2
    refine ⟨?_, h2⟩
    linarith

/-- C5, the claim fails: with pitch 12 the ties 6, -6 and 18 are not sent to 12, -12 and 24.
The code sends 6 and -6 to 0 and 18 to 12. -/
theorem alignOnRaster_tie_counterexample :
    alignOnRaster ⟨10, 10, 2⟩ ⟨6, -6⟩ = .ok ⟨0, 0⟩ ∧
      alignOnRaster ⟨10, 10, 2⟩ ⟨18, -18⟩ = .ok ⟨12, -12⟩ := by
  decide

/-- C5 as amended: `alignOnRaster` breaks ties towards zero. For every positive pitch `d`
and every coordinate `x` whose remainder `x % d` has absolute value exactly `d / 2`, the
result on that axis is the truncated quotient times `d`, the neighbouring multiple nearer to
zero: its absolute value is `d / 2` below that of `x`. -/
theorem alignAxis_tie_towards_zero (d x : Int) (hd : 0 < d) (htie : |x.tmod d| = d / 2) :
    alignAxis d x = x.tdiv d * d ∧ |alignAxis d x| + d / 2 = |x| :=
  alignAxis_tie hd htie

theorem alignAxis_tie_towards_zero_witness :
    (0 : Int) < 12 ∧ |(18 : Int).tmod 12| = 12 / 2 ∧
      alignAxis 12 18 = (18 : Int).tdiv 12 * 12 ∧ |alignAxis 12 18| + 12 / 2 = |(18 : Int)| :=
  ⟨by decide, by decide, alignAxis_tie_towards_zero 12 18 (by decide) (by decide)⟩

theorem paddingAdjustedCells_example : paddingAdjustedCells 11 10 2 = 2 := by
  unfold paddingAdjustedCells
  rw [if_pos (by decide), Int.ceil_eq_iff]
  norm_num

/-- In unbounded integers the cell count of an axis is the least `n ≥ 0` with
`n * (w + p) ≥ s`; it is the padding-adjusted count of the specification or one less. -/
theorem rasterAxis_cover (s : Int) (w p : Nat) (hs : 0 ≤ s) (hw : 0 < w) :
    ∃ n : Nat, rasterAxis w p s = .ok (n : Int) ∧
      s ≤ (n : Int) * ((w : Int) + p) ∧
      (∀ m : Nat, s ≤ (m : Int) * ((w : Int) + p) → n ≤ m) ∧
      (n : Int) ≤ paddingAdjustedCells s w p ∧ paddingAdjustedCells s w p ≤ (n : Int) + 1 := by
  obtain ⟨n, hn, hup, hlow⟩ := rasterAxis_spec w p (by omega) s
  have hD : (0 : Int) < (w : Int) + p := by omega
  have hDq : (0 : ℚ) < (w : ℚ) + (p : ℚ) := by exact_mod_cast hD
  have hleast : ∀ m : Nat, s ≤ (m : Int) * ((w : Int) + p) → n ≤ m := by
    intro m hm
    by_contra hlt
    have hnm : (m : Int) ≤ (n : Int) - 1 := by omega
    have h1 := hlow (by omega)
    have h2 : (m : Int) * ((w : Int) + p) ≤ ((n : Int) - 1) * ((w : Int) + p) :=
      mul_le_mul_of_nonneg_right hnm hD.le
    omega
  refine ⟨n, hn, hup, hleast, ?_, ?_⟩
  · unfold paddingAdjustedCells
    by_cases hpos : s > 0
    · rw [if_pos hpos, Int.le_ceil_iff]
      rcases Nat.eq_zero_or_pos n with hz | hp
      · subst hz
        have : (0 : ℚ) < (s : ℚ) + (p : ℚ) := by
          have : (0 : ℚ) < (s : ℚ) := by exact_mod_cast hpos
          positivity
        have := div_pos this hDq
        push_cast; linarith
      · have h1 := hlow hp
        have h2 : (((n : Int) - 1) * ((w : Int) + p) : ℚ) < (s : ℚ) := by exact_mod_cast h1
        rw [lt_div_iff₀ hDq]
        have hp0 : (0 : ℚ) ≤ (p : ℚ) := by positivity
        push_cast at h2 ⊢; linarith
    · rw [if_neg hpos]
      have hs0 : s = 0 := by omega
      subst hs0
      have := hleast 0 (by simp)
      omega
  · unfold paddingAdjustedCells
    by_cases hpos : s > 0
    · rw [if_pos hpos, Int.ceil_le, div_le_iff₀ hDq]
      have h2 : (s : ℚ) ≤ ((n : Int) * ((w : Int) + p) : ℚ) := by exact_mod_cast hup
      have hp0 : (0 : ℚ) ≤ (p : ℚ) := by positivity
      have hw0 : (0 : ℚ) ≤ (w : ℚ) := by positivity
      push_cast at h2 ⊢; linarith
    · rw [if_neg hpos]; omega

/-! ## Properties of the heat map -/

theorem forLoopFrom_invariant {σ : Type} (body : Nat → σ → Except Fault σ)
    (P : Nat → σ → Prop) :
    ∀ (remaining i : Nat) (s : σ), P i s →
      (∀ k t, i ≤ k → k < i + remaining → P k t → ∃ t1, body k t = .ok t1 ∧ P (k + 1) t1) →
      ∃ s1, forLoopFrom body remaining i s = .ok s1 ∧ P (i + remaining) s1 := by
  intro remaining
  induction remaining with
  | zero => intro i s h0 _; exact ⟨s, rfl, by simpa using h0⟩
  | succ r ih =>
    intro i s h0 hstep
    obtain ⟨t1, ht1, hP1⟩ := hstep i s le_rfl (by omega) h0
    obtain ⟨s1, hs1, hP⟩ := ih (i + 1) t1 hP1
      (fun k t hk1 hk2 hPk => hstep k t (by omega) (by omega) hPk)
    refine ⟨s1, ?_, ?_⟩
    · simp only [forLoopFrom, ht1]; exact hs1
    · have e : i + (r + 1) = i + 1 + r := by omega
      rw [e]; exact hP

theorem forLoop_invariant {σ : Type} (body : Nat → σ → Except Fault σ) (P : Nat → σ → Prop)
    (n : Int) (s : σ) (h0 : P 0 s)
    (hstep : ∀ (k : Nat) (t : σ), (k : Int) < n → P k t → ∃ t1, body k t = .ok t1 ∧ P (k + 1) t1) :
    ∃ s1, forLoop n body s = .ok s1 ∧ P n.toNat s1 := by
  have h := forLoopFrom_invariant body P n.toNat 0 s h0
    (fun k t _ hk hP => hstep k t (by omega) hP)
  simpa [forLoop] using h

theorem modifyCell_eq (corner : Vec2i) (modifier : Int) (i j : Nat) (hm : Grid) :
    modifyCell corner modifier i j hm = .ok (hm.bumpCell (corner.x + i) (corner.y + j) modifier) := by
  unfold modifyCell Grid.bumpCell Grid.getValue Grid.setValue
  by_cases hr : hm.inRange (corner.x + i) (corner.y + j)
  · have h1 : ¬ (corner.x + (i : Int) < 0 ∨ corner.x + (i : Int) > (hm.columns : Int) - 1) := by
      unfold Grid.inRange at hr; omega
    have h2 : ¬ (corner.y + (j : Int) < 0 ∨ corner.y + (j : Int) > (hm.rows : Int) - 1) := by
      unfold Grid.inRange at hr; omega
    simp only [h1, h2, hr, if_true, if_false]
    congr 2
    funext a b
    by_cases hc : a = (corner.x + (i : Int)).toNat ∧ b = (corner.y + (j : Int)).toNat
    · simp only [hc, and_self, if_true]
    · simp only [hc, if_false]
  · simp only [hr, if_false]
    by_cases h1 : corner.x + (i : Int) < 0 ∨ corner.x + (i : Int) > (hm.columns : Int) - 1
    · simp only [h1, if_true]
    · by_cases h2 : corner.y + (j : Int) < 0 ∨ corner.y + (j : Int) > (hm.rows : Int) - 1
      · simp only [h1, h2, if_true, if_false]
      · exfalso; apply hr; unfold Grid.inRange; omega

theorem incrementCell_eq (left up : Int) (i j : Nat) (hm : Grid)
    (hr : hm.inRange (left + i) (up + j)) :
    incrementCell left up i j hm = .ok (hm.bumpCell (left + i) (up + j) 1) := by
  unfold incrementCell Grid.bumpCell Grid.getValue Grid.setValue
  simp only [hr, if_true]
  congr 2
  funext a b
  by_cases hc : a = (left + (i : Int)).toNat ∧ b = (up + (j : Int)).toNat
  · simp only [hc, and_self, if_true]
  · simp only [hc, if_false]

theorem Grid.bump_congr (g : Grid) (m : Int) {sel1 sel2 : Nat → Nat → Bool}
    (h : ∀ a b, sel1 a b = sel2 a b) : g.bump m sel1 = g.bump m sel2 := by
  have : sel1 = sel2 := by funext a b; exact h a b
  rw [this]

theorem Grid.bump_bumpCell (g : Grid) (sel : Nat → Nat → Bool) (x y m : Int)
    (hnot : g.inRange x y → sel x.toNat y.toNat = false) :
    (g.bump m sel).bumpCell x y m =
      g.bump m (fun a b => sel a b || decide (g.inRange x y ∧ a = x.toNat ∧ b = y.toNat)) := by
  unfold Grid.bumpCell
  have hr : (g.bump m sel).inRange x y ↔ g.inRange x y := Iff.rfl
  by_cases h : g.inRange x y
  · rw [if_pos (hr.mpr h)]
    unfold Grid.bump
    simp only
    congr 1
    funext a b
    by_cases hc : a = x.toNat ∧ b = y.toNat
    · obtain ⟨ha, hb⟩ := hc
      subst ha; subst hb
      simp [hnot h, h]
    · simp [hc, h]
  · rw [if_neg (fun hh => h (hr.mp hh))]
    exact Grid.bump_congr g m (fun a b => by simp [h])

theorem Grid.bump_none (g : Grid) (m : Int) {sel : Nat → Nat → Bool}
    (h : ∀ a b, sel a b = false) : g.bump m sel = g := by
  unfold Grid.bump
  cases g
  simp only [Grid.mk.injEq, true_and]
  funext a b
  simp [h a b]

theorem coveredBy_of_width_nonpos (columns rows : Nat) (corner : Vec2i) (w h : Int)
    (hw : w ≤ 0) (a b : Nat) : coveredBy columns rows corner w h a b = false := by
  simp only [coveredBy, decide_eq_false_iff_not]; omega

theorem coveredBy_of_height_nonpos (columns rows : Nat) (corner : Vec2i) (w h : Int)
    (hh : h ≤ 0) (a b : Nat) : coveredBy columns rows corner w h a b = false := by
  simp only [coveredBy, decide_eq_false_iff_not]; omega

theorem rect_loop (g : Grid) (corner size : Vec2i) (m : Int)
    (body : Nat → Nat → Grid → Except Fault Grid)
    (hbody : ∀ (i j : Nat) (hm : Grid), (i : Int) < size.x → (j : Int) < size.y →
      hm.columns = g.columns → hm.rows = g.rows →
      body i j hm = .ok (hm.bumpCell (corner.x + i) (corner.y + j) m)) :
    forLoop size.x (fun i hm => forLoop size.y (fun j hm1 => body i j hm1) hm) g =
      .ok (g.bump m (coveredBy g.columns g.rows corner size.x size.y)) := by
  have houter := forLoop_invariant
    (fun i hm => forLoop size.y (fun j hm1 => body i j hm1) hm)
    (fun i hm => hm = g.bump m (coveredBy g.columns g.rows corner i size.y)) size.x g
    (by
      show g = g.bump m _
      rw [Grid.bump_none]
      exact coveredBy_of_width_nonpos _ _ _ _ _ (by simp))
    (by
      intro i hm hi hP
      have hinner := forLoop_invariant (fun j hm1 => body i j hm1)
        (fun j hm1 => hm1 = g.bump m (fun a b =>
          coveredBy g.columns g.rows corner i size.y a b ||
            coveredBy g.columns g.rows ⟨corner.x + i, corner.y⟩ 1 j a b)) size.y hm
        (by
          rw [hP]
          apply Grid.bump_congr
          intro a b
          rw [coveredBy_of_height_nonpos _ _ ⟨corner.x + i, corner.y⟩ 1 ((0 : Nat) : Int) (by simp), Bool.or_false])
        (by
          intro j hm1 hj hQ
          refine ⟨_, hbody i j hm1 hi hj (by rw [hQ]; rfl) (by rw [hQ]; rfl), ?_⟩
          rw [hQ, Grid.bump_bumpCell]
          · apply Grid.bump_congr
            intro a b
            rw [Bool.eq_iff_iff]
            simp only [coveredBy, Grid.inRange, Bool.or_eq_true, decide_eq_true_eq]
            push_cast
            omega
          · intro hr
            simp only [coveredBy, Grid.inRange, Bool.or_eq_false_iff, decide_eq_false_iff_not] at hr ⊢
            omega)
      obtain ⟨hm2, hrun, hQ⟩ := hinner
      refine ⟨hm2, hrun, ?_⟩
      rw [hQ]
      apply Grid.bump_congr
      intro a b
      rw [Bool.eq_iff_iff]
      simp only [coveredBy, Bool.or_eq_true, decide_eq_true_eq]
      push_cast
      omega)
  obtain ⟨hm, hrun, hP⟩ := houter
  rw [hrun, hP]
  congr 1
  apply Grid.bump_congr
  intro a b
  rw [Bool.eq_iff_iff]
  simp only [coveredBy, decide_eq_true_eq]
  omega

theorem cellModulus_eq : cellModulus = 4294967296 := by
  norm_num [cellModulus]

theorem cellModulus_cast : (cellModulus : Int) = 4294967296 := by
  norm_num [cellModulus]

theorem modifyHeatmapArea_eq (g : Grid) (corner size : Vec2i) (m : Int) :
    modifyHeatmapArea g corner size m =
      .ok (g.bump m (coveredBy g.columns g.rows corner size.x size.y)) := by
  unfold modifyHeatmapArea
  exact rect_loop g corner size m (fun i j hm => modifyCell corner m i j hm)
    (fun i j hm _ _ _ _ => modifyCell_eq corner m i j hm)

/-- C10: footprint remove/re-add symmetry. For every grid of `unsigned int` counts, corner
and footprint size, `modifyHeatmapArea` with modifier -1 returns, and `modifyHeatmapArea`
with modifier +1 at the same corner and size then returns exactly the grid it started from:
every cell, covered or not, holds its prior count, also where a covered cell held 0 and the
count wrapped in between. -/
theorem modifyHeatmapArea_remove_readd (g : Grid) (corner size : Vec2i)
    (hcells : ∀ a b, a < g.columns → b < g.rows → g.cells a b < cellModulus) :
    ∃ g1, modifyHeatmapArea g corner size (-1) = .ok g1 ∧
      modifyHeatmapArea g1 corner size 1 = .ok g := by
  refine ⟨_, modifyHeatmapArea_eq g corner size (-1), ?_⟩
  rw [modifyHeatmapArea_eq]
  congr 1
  cases g with
  | mk columns rows cells =>
    simp only [Grid.bump, Grid.mk.injEq, true_and]
    funext a b
    by_cases hsel : coveredBy columns rows corner size.x size.y a b = true
    · have hin : a < columns ∧ b < rows := by
        simp only [coveredBy, decide_eq_true_eq] at hsel; omega
      have hlt := hcells a b hin.1 hin.2
      simp only [cellModulus_eq] at hlt
      simp only [hsel, if_true, cellModulus_cast]
      omega
    · simp only [hsel, if_false]
      simp

theorem modifyHeatmapArea_remove_readd_witness :
    (∀ a b, a < (Grid.create 3 3).columns → b < (Grid.create 3 3).rows →
        (Grid.create 3 3).cells a b < cellModulus) ∧
      ∃ g1, modifyHeatmapArea (Grid.create 3 3) ⟨1, 1⟩ ⟨2, 5⟩ (-1) = .ok g1 ∧
        modifyHeatmapArea g1 ⟨1, 1⟩ ⟨2, 5⟩ 1 = .ok (Grid.create 3 3) :=
  ⟨fun _ _ _ _ => by simp [Grid.create, cellModulus],
    modifyHeatmapArea_remove_readd (Grid.create 3 3) ⟨1, 1⟩ ⟨2, 5⟩
      (fun _ _ _ _ => by simp [Grid.create, cellModulus])⟩

theorem rasterAxis_ok (cell padding : Nat) (hpos : 0 < cell + padding) (size : Int) :
    ∃ n : Nat, rasterAxis cell padding size = .ok (n : Int) := by
  obtain ⟨n, hn, _⟩ := rasterAxis_spec cell padding hpos size
  exact ⟨n, hn⟩

theorem calculateRasterNodeSize_ok (cfg : Config) (hw : 0 < cfg.cellWidth + cfg.cellPadding)
    (hh : 0 < cfg.cellHeight + cfg.cellPadding) (node : DummyNode) :
    ∃ sx sy : Nat, calculateRasterNodeSize cfg node = .ok ⟨(sx : Int), (sy : Int)⟩ := by
  obtain ⟨sx, hsx⟩ := rasterAxis_ok cfg.cellWidth cfg.cellPadding hw node.size.x
  obtain ⟨sy, hsy⟩ := rasterAxis_ok cfg.cellHeight cfg.cellPadding hh node.size.y
  exact ⟨sx, sy, by unfold calculateRasterNodeSize; rw [hsx, hsy]⟩

theorem buildHeatMapNode_eq (cfg : Config) (aW aH : Int) (W H : Nat) (hm : Grid)
    (node : DummyNode) (sx sy : Nat)
    (hsize : calculateRasterNodeSize cfg node = .ok ⟨(sx : Int), (sy : Int)⟩)
    (hc : hm.columns = W) (hr : hm.rows = H) :
    buildHeatMapNode cfg aW aH W H hm node =
      .ok (if 0 ≤ node.position.x.tdiv aW + (W : Int).tdiv 2 ∧
              node.position.x.tdiv aW + (W : Int).tdiv 2 + sx ≤ W ∧
              0 ≤ node.position.y.tdiv aH + (H : Int).tdiv 2 ∧
              node.position.y.tdiv aH + (H : Int).tdiv 2 + sy ≤ H then
            hm.bump 1 (coveredBy W H
              ⟨node.position.x.tdiv aW + (W : Int).tdiv 2, node.position.y.tdiv aH + (H : Int).tdiv 2⟩
              sx sy)
          else hm) := by
  unfold buildHeatMapNode
  simp only [hsize]
  generalize node.position.x.tdiv aW + (W : Int).tdiv 2 = left
  generalize node.position.y.tdiv aH + (H : Int).tdiv 2 = up
  by_cases h1 : left + (sx : Int) > W ∨ left < 0
  · rw [if_pos h1, if_neg (by omega)]
  · rw [if_neg h1]
    by_cases h2 : up + (sy : Int) > H ∨ up < 0
    · rw [if_pos h2, if_neg (by omega)]
    · rw [if_neg h2, if_pos (by omega)]
      have := rect_loop hm ⟨left, up⟩ ⟨sx, sy⟩ 1 (fun i j g => incrementCell left up i j g)
        (fun i j g hi hj hgc hgr => incrementCell_eq left up i j g (by
          simp only at hi hj
          unfold Grid.inRange
          rw [hgc, hgr, hc, hr]
          omega))
      simp only at this
      rw [this, hc, hr]

theorem heatMapExtent_nonneg {m : Int} (hm : 0 ≤ m) (n : Nat) {a : Int} (ha : 0 < a) :
    0 ≤ heatMapExtent m n a := by
  unfold heatMapExtent
  have : 0 ≤ (m * (n : Int)).tdiv a :=
    Int.tdiv_nonneg (mul_nonneg hm (by omega)) ha.le
  omega

/-- C8: `doPostprocessing` is a no-op below the minimum size. For every node list of length 0
or 1 it returns the list unchanged, every position and size as before, whatever the
configuration, so neither centroid, alignment nor heat map is computed. -/
theorem doPostprocessing_short (fa : FloatArith) (cfg : Config) (nodes : List DummyNode)
    (hlen : nodes.length < 2) : doPostprocessing fa cfg nodes = .ok nodes := by
  unfold doPostprocessing
  rw [if_pos hlen]

theorem doPostprocessing_short_witness :
    doPostprocessing intArith ⟨0, 0, 0⟩ [⟨⟨7, -5⟩, ⟨10, 10⟩⟩] = .ok [⟨⟨7, -5⟩, ⟨10, 10⟩⟩] ∧
      doPostprocessing intArith ⟨10, 10, 2⟩ [] = .ok [] :=
  ⟨doPostprocessing_short intArith ⟨0, 0, 0⟩ [⟨⟨7, -5⟩, ⟨10, 10⟩⟩] (by decide),
    doPostprocessing_short intArith ⟨10, 10, 2⟩ [] (by decide)⟩

/-! ## Properties of the postprocessing pass -/

theorem alignNodeOnRaster_aligned {cfg : Config} {node node1 : DummyNode}
    (h : alignNodeOnRaster cfg node = .ok node1) : Aligned cfg node1 ∧ node1.size = node.size := by
  unfold alignNodeOnRaster alignOnRaster at h
  by_cases hz : rasterPosDivisor cfg = 0
  · simp [hz] at h
  · simp only [hz, if_false] at h
    injection h with h
    subst h
    exact ⟨⟨alignAxis_dvd _, alignAxis_dvd _⟩, rfl⟩

theorem alignAll_aligned {cfg : Config} :
    ∀ {nodes result : List DummyNode}, alignAll cfg nodes = .ok result →
      ∀ node ∈ result, Aligned cfg node := by
  intro nodes
  induction nodes with
  | nil =>
    intro result h node hmem
    simp only [alignAll] at h
    injection h with h
    subst h
    simp at hmem
  | cons n rest ih =>
    intro result h node hmem
    simp only [alignAll] at h
    split at h
    · exact absurd h (by simp)
    · rename_i node1 h1
      split at h
      · exact absurd h (by simp)
      · rename_i rest1 h2
        injection h with h
        subst h
        rcases List.mem_cons.mp hmem with hh | hh
        · subst hh; exact (alignNodeOnRaster_aligned h1).1
        · exact ih h2 node hh

theorem resolveOverlapNode_result {fa : FloatArith} {cfg : Config} {dW dH : Int}
    {st st1 : OverlapState} {node node1 : DummyNode}
    (h : resolveOverlapNode fa cfg dW dH st node = .ok (node1, st1)) :
    node1 = node ∨ ∃ moved, alignNodeOnRaster cfg moved = .ok node1 := by
  unfold resolveOverlapNode at h
  simp only at h
  split at h
  · exact absurd h (by simp)
  · split at h
    · exact absurd h (by simp)
    · split at h
      · injection h with h; injection h with h1 h2; exact Or.inl h1.symm
      · split at h
        · injection h with h; injection h with h1 h2; exact Or.inl h1.symm
        · split at h
          · exact absurd h (by simp)
          · split at h
            · exact absurd h (by simp)
            · split at h
              · exact absurd h (by simp)
              · rename_i node2 hal
                split at h
                · exact absurd h (by simp)
                · split at h
                  · exact absurd h (by simp)
                  · injection h with h; injection h with h1 h2
                    subst h1
                    exact Or.inr ⟨_, hal⟩

theorem resolveOverlapPass_aligned {fa : FloatArith} {cfg : Config} {dW dH : Int} :
    ∀ {nodes result : List DummyNode} {st st1 : OverlapState},
      (∀ node ∈ nodes, Aligned cfg node) →
      resolveOverlapPass fa cfg dW dH nodes st = .ok (result, st1) →
      ∀ node ∈ result, Aligned cfg node := by
  intro nodes
  induction nodes with
  | nil =>
    intro result st st1 _ h node hmem
    simp only [resolveOverlapPass] at h
    injection h with h; injection h with h1 h2
    subst h1
    simp at hmem
  | cons n rest ih =>
    intro result st st1 hal h node hmem
    simp only [resolveOverlapPass] at h
    split at h
    · exact absurd h (by simp)
    · rename_i node1 st2 h1
      split at h
      · exact absurd h (by simp)
      · rename_i rest1 st3 h2
        injection h with h; injection h with h3 h4
        subst h3
        rcases List.mem_cons.mp hmem with hh | hh
        · subst hh
          rcases resolveOverlapNode_result h1 with he | ⟨moved, hm⟩
          · rw [he]; exact hal n (List.mem_cons_self _ _)
          · exact (alignNodeOnRaster_aligned hm).1
        · exact ih (fun m hm => hal m (List.mem_cons_of_mem _ hm)) h2 node hh

theorem resolveOverlapLoop_aligned {fa : FloatArith} {cfg : Config} {dW dH : Int} :
    ∀ (remaining : Nat) {nodes result : List DummyNode} {st st1 : OverlapState} {passes count : Nat},
      (∀ node ∈ nodes, Aligned cfg node) →
      resolveOverlapLoop fa cfg dW dH remaining nodes st passes = .ok (result, st1, count) →
      ∀ node ∈ result, Aligned cfg node := by
  intro remaining
  induction remaining with
  | zero =>
    intro nodes result st st1 passes count hal h
    simp only [resolveOverlapLoop] at h
    injection h with h; injection h with h1 h2
    subst h1
    exact hal
  | succ r ih =>
    intro nodes result st st1 passes count hal h
    simp only [resolveOverlapLoop] at h
    split at h
    · split at h
      · exact absurd h (by simp)
      · rename_i nodes1 st2 hpass
        exact ih (resolveOverlapPass_aligned hal hpass) h
    · injection h with h; injection h with h1 h2
      subst h1
      exact hal

theorem doPostprocessing_result_aligned {fa : FloatArith} {cfg : Config}
    {nodes result : List DummyNode} (hlen : 2 ≤ nodes.length)
    (h : doPostprocessing fa cfg nodes = .ok result) : ∀ node ∈ result, Aligned cfg node := by
  unfold doPostprocessing at h
  rw [if_neg (by omega)] at h
  simp only at h
  split at h
  · exact absurd h (by simp)
  · rename_i aligned hal
    split at h
    · exact absurd h (by simp)
    · rename_i heatMap hhm
      split at h
      · exact absurd h (by simp)
      · rename_i res st count hres
        injection h with h
        subst h
        unfold resolveOverlap at hres
        exact resolveOverlapLoop_aligned _ (alignAll_aligned hal) hres

theorem Grid.getValue_ok {g : Grid} {x y : Int} (h : g.inRange x y) :
    g.getValue x y = .ok (g.cells x.toNat y.toNat) := by
  unfold Grid.getValue; rw [if_pos h]

theorem gradientCell_ok (fa : FloatArith) (heatMap : Grid) (corner size : Vec2i) (i j : Nat)
    (st : Vec2f fa × Bool) : ∃ st1, gradientCell fa heatMap corner size i j st = .ok st1 := by
  unfold gradientCell
  simp only
  by_cases h1 : corner.x + (i : Int) < 1 ∨ corner.x + (i : Int) > (heatMap.columns : Int) - 2
  · exact ⟨st, by rw [if_pos h1]⟩
  · rw [if_neg h1]
    by_cases h2 : corner.y + (j : Int) < 1 ∨ corner.y + (j : Int) > (heatMap.rows : Int) - 2
    · exact ⟨st, by rw [if_pos h2]⟩
    · rw [if_neg h2]
      rw [Grid.getValue_ok (by unfold Grid.inRange; omega),
        Grid.getValue_ok (by unfold Grid.inRange; omega),
        Grid.getValue_ok (by unfold Grid.inRange; omega),
        Grid.getValue_ok (by unfold Grid.inRange; omega),
        Grid.getValue_ok (by unfold Grid.inRange; omega)]
      exact ⟨_, rfl⟩

theorem getHeatmapGradient_ok (fa : FloatArith) (outGradient : Vec2f fa) (heatMap : Grid)
    (corner size : Vec2i) :
    ∃ r, getHeatmapGradient fa outGradient heatMap corner size = .ok r := by
  unfold getHeatmapGradient
  obtain ⟨r, hr, _⟩ := forLoop_invariant
    (fun i st => forLoop size.y (fun j st1 => gradientCell fa heatMap corner size i j st1) st)
    (fun _ _ => True) size.x (outGradient, false) trivial
    (by
      intro i st _ _
      obtain ⟨r, hr, _⟩ := forLoop_invariant
        (fun j st1 => gradientCell fa heatMap corner size i j st1) (fun _ _ => True) size.y st
        trivial
        (by
          intro j st1 _ _
          obtain ⟨r, hr⟩ := gradientCell_ok fa heatMap corner size i j st1
          exact ⟨r, hr, trivial⟩)
      exact ⟨r, hr, trivial⟩)
  exact ⟨r, hr⟩

theorem alignNodeOnRaster_ok {cfg : Config} (h : 0 < rasterPosDivisor cfg) (node : DummyNode) :
    ∃ node1, alignNodeOnRaster cfg node = .ok node1 := by
  unfold alignNodeOnRaster
  rw [alignOnRaster_ok h]
  exact ⟨_, rfl⟩

theorem alignAll_ok {cfg : Config} (h : 0 < rasterPosDivisor cfg) :
    ∀ nodes : List DummyNode, ∃ result, alignAll cfg nodes = .ok result := by
  intro nodes
  induction nodes with
  | nil => exact ⟨[], rfl⟩
  | cons n rest ih =>
    obtain ⟨n1, hn1⟩ := alignNodeOnRaster_ok h n
    obtain ⟨r, hr⟩ := ih
    exact ⟨n1 :: r, by simp only [alignAll, hn1, hr]⟩

theorem getHeatmapGradient_ne_error {fa : FloatArith} {outGradient : Vec2f fa} {heatMap : Grid}
    {corner size : Vec2i} {e : Fault} :
    getHeatmapGradient fa outGradient heatMap corner size ≠ .error e := by
  obtain ⟨r, hr⟩ := getHeatmapGradient_ok fa outGradient heatMap corner size
  rw [hr]; simp

theorem alignNodeOnRaster_ne_error {cfg : Config} (h : 0 < rasterPosDivisor cfg)
    {node : DummyNode} {e : Fault} : alignNodeOnRaster cfg node ≠ .error e := by
  obtain ⟨r, hr⟩ := alignNodeOnRaster_ok h node
  rw [hr]; simp

theorem resolveOverlapNode_ok (fa : FloatArith) (cfg : Config) {dW dH : Int}
    (hdW : dW ≠ 0) (hdH : dH ≠ 0)
    (hw : 0 < cfg.cellWidth + cfg.cellPadding) (hh : 0 < cfg.cellHeight + cfg.cellPadding)
    (st : OverlapState) (node : DummyNode) :
    ∃ r, resolveOverlapNode fa cfg dW dH st node = .ok r := by
  obtain ⟨sx, sy, hsize⟩ := calculateRasterNodeSize_ok cfg hw hh node
  have hpitch : 0 < rasterPosDivisor cfg := by unfold rasterPosDivisor; omega
  unfold resolveOverlapNode
  simp only [hsize]
  rw [if_neg (by omega)]
  split
  · exact ⟨_, rfl⟩
  · split
    · exact ⟨_, rfl⟩
    · split
      · rename_i e hg; exact absurd hg getHeatmapGradient_ne_error
      · simp only [modifyHeatmapArea_eq]
        split
        · rename_i e hal; exact absurd hal (alignNodeOnRaster_ne_error hpitch)
        · split
          · rename_i e hg; exact absurd hg getHeatmapGradient_ne_error
          · exact ⟨_, rfl⟩

theorem resolveOverlapPass_ok (fa : FloatArith) (cfg : Config) {dW dH : Int}
    (hdW : dW ≠ 0) (hdH : dH ≠ 0)
    (hw : 0 < cfg.cellWidth + cfg.cellPadding) (hh : 0 < cfg.cellHeight + cfg.cellPadding) :
    ∀ (nodes : List DummyNode) (st : OverlapState),
      ∃ r, resolveOverlapPass fa cfg dW dH nodes st = .ok r := by
  intro nodes
  induction nodes with
  | nil => intro st; exact ⟨_, rfl⟩
  | cons n rest ih =>
    intro st
    obtain ⟨⟨n1, st1⟩, h1⟩ := resolveOverlapNode_ok fa cfg hdW hdH hw hh st n
    obtain ⟨⟨r1, st2⟩, h2⟩ := ih st1
    exact ⟨(n1 :: r1, st2), by simp only [resolveOverlapPass, h1, h2]⟩

theorem resolveOverlapLoop_ok (fa : FloatArith) (cfg : Config) {dW dH : Int}
    (hdW : dW ≠ 0) (hdH : dH ≠ 0)
    (hw : 0 < cfg.cellWidth + cfg.cellPadding) (hh : 0 < cfg.cellHeight + cfg.cellPadding) :
    ∀ (remaining : Nat) (nodes : List DummyNode) (st : OverlapState) (passes : Nat),
      ∃ r, resolveOverlapLoop fa cfg dW dH remaining nodes st passes = .ok r := by
  intro remaining
  induction remaining with
  | zero => intro nodes st passes; exact ⟨_, rfl⟩
  | succ k ih =>
    intro nodes st passes
    by_cases hov : st.overlap = true
    · obtain ⟨⟨n1, st1⟩, h1⟩ := resolveOverlapPass_ok fa cfg hdW hdH hw hh nodes ⟨st.heatMap, false⟩
      obtain ⟨r, hr⟩ := ih n1 st1 (passes + 1)
      exact ⟨r, by simp only [resolveOverlapLoop, hov, if_true, h1, hr]⟩
    · exact ⟨_, by simp only [resolveOverlapLoop, hov]; rfl⟩

theorem buildHeatMapLoop_ok (cfg : Config) (hw : 0 < cfg.cellWidth + cfg.cellPadding)
    (hh : 0 < cfg.cellHeight + cfg.cellPadding) (aW aH : Int) (W H : Nat) :
    ∀ (nodes : List DummyNode) (hm : Grid), hm.columns = W → hm.rows = H →
      ∃ g, buildHeatMapLoop cfg aW aH W H nodes hm = .ok g := by
  intro nodes
  induction nodes with
  | nil => intro hm _ _; exact ⟨hm, rfl⟩
  | cons node rest ih =>
    intro hm hc hr
    obtain ⟨sx, sy, hsize⟩ := calculateRasterNodeSize_ok cfg hw hh node
    have hnode := buildHeatMapNode_eq cfg aW aH W H hm node sx sy hsize hc hr
    split at hnode
    · obtain ⟨g, hg⟩ := ih _ (show (hm.bump 1 _).columns = W from hc) (show (hm.bump 1 _).rows = H from hr)
      exact ⟨g, by simp only [buildHeatMapLoop, hnode]; exact hg⟩
    · obtain ⟨g, hg⟩ := ih hm hc hr
      exact ⟨g, by simp only [buildHeatMapLoop, hnode]; exact hg⟩

theorem buildHeatMap_ok (cfg : Config) (hw : 0 < cfg.cellWidth + cfg.cellPadding)
    (hh : 0 < cfg.cellHeight + cfg.cellPadding) (nodes : List DummyNode)
    {maxNodeWidth maxNodeHeight : Int} (hmw : 0 ≤ maxNodeWidth) (hmh : 0 ≤ maxNodeHeight) :
    ∃ g, buildHeatMap cfg nodes ((cfg.cellWidth : Int) + cfg.cellPadding)
      ((cfg.cellHeight : Int) + cfg.cellPadding) maxNodeWidth maxNodeHeight = .ok g := by
  have hW := heatMapExtent_nonneg hmw nodes.length
    (show 0 < (cfg.cellWidth : Int) + cfg.cellPadding by omega)
  have hH := heatMapExtent_nonneg hmh nodes.length
    (show 0 < (cfg.cellHeight : Int) + cfg.cellPadding by omega)
  obtain ⟨W, hWe⟩ := Int.eq_ofNat_of_zero_le hW
  obtain ⟨H, hHe⟩ := Int.eq_ofNat_of_zero_le hH
  obtain ⟨g, hg⟩ := buildHeatMapLoop_ok cfg hw hh ((cfg.cellWidth : Int) + cfg.cellPadding)
    ((cfg.cellHeight : Int) + cfg.cellPadding) W H nodes (Grid.create W H)
    (by simp [Grid.create]) (by simp [Grid.create])
  refine ⟨g, ?_⟩
  unfold buildHeatMap
  rw [if_neg (by omega)]
  simp only [hWe, hHe]
  exact hg

theorem massLoop_nonneg (fa : FloatArith) (nodes : List DummyNode) :
    0 ≤ (massLoop fa nodes).maxNodeWidth ∧ 0 ≤ (massLoop fa nodes).maxNodeHeight := by
  unfold massLoop
  generalize hst : (⟨999999, 999999, 0, 0, ⟨0, 0⟩, fa.ofInt 0⟩ : MassState fa) = st
  have h0 : 0 ≤ st.maxNodeWidth ∧ 0 ≤ st.maxNodeHeight := by subst hst; simp
  clear hst
  induction nodes generalizing st with
  | nil => exact h0
  | cons n rest ih =>
    rw [List.foldl_cons]
    apply ih
    unfold massStep
    simp only
    refine ⟨?_, ?_⟩
    · split <;> omega
    · split
      · omega
      · split <;> omega

theorem doPostprocessing_ok (fa : FloatArith) (cfg : Config) (nodes : List DummyNode)
    (hw : 0 < cfg.cellWidth + cfg.cellPadding) (hh : 0 < cfg.cellHeight + cfg.cellPadding) :
    ∃ result, doPostprocessing fa cfg nodes = .ok result := by
  unfold doPostprocessing
  by_cases hlen : nodes.length < 2
  · exact ⟨nodes, by rw [if_pos hlen]⟩
  · rw [if_neg hlen]
    have hpitch : 0 < rasterPosDivisor cfg := by unfold rasterPosDivisor; omega
    obtain ⟨aligned, hal⟩ := alignAll_ok hpitch
      (resolveOutliers fa nodes (divideI fa (massLoop fa nodes).centerOfMass (massLoop fa nodes).totalMass))
    obtain ⟨hm, hhm⟩ := buildHeatMap_ok cfg hw hh aligned (massLoop_nonneg fa nodes).1
      (massLoop_nonneg fa nodes).2
    obtain ⟨⟨res, st, count⟩, hres⟩ := resolveOverlapLoop_ok fa cfg
      (show (cfg.cellWidth : Int) + cfg.cellPadding ≠ 0 by omega)
      (show (cfg.cellHeight : Int) + cfg.cellPadding ≠ 0 by omega) hw hh
      maxIterations aligned ⟨hm, true⟩ 0
    refine ⟨res, ?_⟩
    simp only [hal, hhm, resolveOverlap, hres]

/-! ## The scenario of two coincident nodes -/

theorem searchSqrt_square (n : Nat) :
    ∀ fuel k : Nat, k ≤ n → n - k ≤ fuel → searchSqrt (n * n) fuel k = n := by
  intro fuel
  induction fuel with
  | zero =>
    intro k hk hf
    have : k = n := by omega
    subst this; rfl
  | succ f ih =>
    intro k hk hf
    by_cases hkn : k = n
    · subst hkn
      have : ¬ ((k + 1) * (k + 1) ≤ k * k) := by nlinarith
      simp only [searchSqrt, this, if_false]
    · have hlt : k + 1 ≤ n := by omega
      have : (k + 1) * (k + 1) ≤ n * n := Nat.mul_le_mul hlt hlt
      simp only [searchSqrt, this, if_true]
      exact ih (k + 1) hlt (by omega)

theorem intArith_exact : ExactOnIntegers intArith where
  add_ofInt := fun _ _ _ _ _ => rfl
  sub_ofInt := fun _ _ _ _ _ => rfl
  mul_ofInt := fun _ _ _ _ _ => rfl
  div_ofInt := fun a b hb _ _ => Int.mul_tdiv_cancel a hb
  sqrt_ofInt := fun n hn _ => by
    obtain ⟨m, rfl⟩ := Int.eq_ofNat_of_zero_le hn
    show ((searchSqrt ((m : Int) * m).toNat ((m : Int) * m).toNat 0 : Nat) : Int) = m
    have : ((m : Int) * m).toNat = m * m := by rw [← Nat.cast_mul]; exact Int.toNat_natCast _
    rw [this, searchSqrt_square m (m * m) 0 (Nat.zero_le _) (by simpa using Nat.le_mul_self m)]
  toInt_ofInt := fun _ _ => rfl
  lt_ofInt := fun _ _ _ _ => rfl
  le_ofInt := fun _ _ _ _ => rfl
  eq_ofInt := fun _ _ _ _ => rfl
  le_epsilon := fun _ _ => rfl

theorem scenario_massLoop (fa : FloatArith) (h : ExactOnIntegers fa) :
    massLoop fa [⟨⟨0, 0⟩, ⟨10, 10⟩⟩, ⟨⟨0, 0⟩, ⟨10, 10⟩⟩] =
      ⟨10, 10, 10, 10, ⟨0, 0⟩, fa.ofInt 200⟩ := by
  simp (disch := norm_num) [massLoop, massStep, scaleI, h.add_ofInt, h.mul_ofInt, h.toInt_ofInt]

theorem scenario_resolveOutliers (fa : FloatArith) (h : ExactOnIntegers fa) :
    resolveOutliers fa [⟨⟨0, 0⟩, ⟨10, 10⟩⟩, ⟨⟨0, 0⟩, ⟨10, 10⟩⟩]
      (divideI fa ⟨0, 0⟩ (fa.ofInt 200)) = [⟨⟨0, 0⟩, ⟨10, 10⟩⟩, ⟨⟨0, 0⟩, ⟨10, 10⟩⟩] := by
  have hd : fa.div (fa.ofInt 0) (fa.ofInt 200) = fa.ofInt 0 := by
    have := h.div_ofInt 0 200 (by norm_num) (by norm_num) (by norm_num)
    simpa using this
  have hs : fa.sqrt (fa.ofInt 0) = fa.ofInt 0 := by
    have := h.sqrt_ofInt 0 (by norm_num) (by norm_num)
    simpa using this
  simp (disch := norm_num) [resolveOutliers, divideI, lengthI, hd, hs, h.add_ofInt, h.mul_ofInt,
    h.toInt_ofInt, h.lt_ofInt, h.eq_ofInt]

theorem getHeatmapGradient_unit (fa : FloatArith) (g : Vec2f fa) (hm : Grid) (x y : Nat)
    (hx1 : 1 ≤ x) (hx2 : x + 2 ≤ hm.columns) (hy1 : 1 ≤ y) (hy2 : y + 2 ≤ hm.rows) :
    getHeatmapGradient fa g hm ⟨x, y⟩ ⟨1, 1⟩ =
      .ok (⟨fa.add g.x (fa.add
              (fa.sub (fa.sqrt (fa.ofInt ((hm.cells (x - 1) y : Int) % (cellModulus : Int))))
                (fa.ofInt (hm.cells x y)))
              (fa.sub (fa.ofInt (hm.cells x y))
                (fa.sqrt (fa.ofInt ((hm.cells (x + 1) y : Int) % (cellModulus : Int)))))),
            fa.add g.y (fa.add
              (fa.sub (fa.sqrt (fa.ofInt ((hm.cells x (y - 1) : Int) % (cellModulus : Int))))
                (fa.ofInt (hm.cells x y)))
              (fa.sub (fa.ofInt (hm.cells x y))
                (fa.sqrt (fa.ofInt ((hm.cells x (y + 1) : Int) % (cellModulus : Int))))))⟩,
          decide (1 < hm.cells x y)) := by
  have hmag : magFactor 1 0 = 1 := by decide
  have e1 : ((x : Int) + 1).toNat = x + 1 := by omega
  have e2 : ((x : Int) - 1).toNat = x - 1 := by omega
  have e3 : ((y : Int) + 1).toNat = y + 1 := by omega
  have e4 : ((y : Int) - 1).toNat = y - 1 := by omega
  have t1 : (1 : Int).toNat = 1 := rfl
  unfold getHeatmapGradient forLoop
  simp only [t1, forLoopFrom, gradientCell, hmag, Nat.cast_zero, add_zero, mul_one]
  rw [if_neg (by omega), if_neg (by omega)]
  rw [Grid.getValue_ok (by unfold Grid.inRange; omega),
    Grid.getValue_ok (by unfold Grid.inRange; omega),
    Grid.getValue_ok (by unfold Grid.inRange; omega),
    Grid.getValue_ok (by unfold Grid.inRange; omega),
    Grid.getValue_ok (by unfold Grid.inRange; omega)]
  simp only [Int.toNat_ofNat, e1, e2, e3, e4]
  by_cases hv : 1 < hm.cells x y <;> simp [hv]

theorem scenario_sqrt_zero {fa : FloatArith} (h : ExactOnIntegers fa) :
    fa.sqrt (fa.ofInt 0) = fa.ofInt 0 := by
  simpa using h.sqrt_ofInt 0 (by norm_num) (by norm_num)

theorem scenario_sqrt_one {fa : FloatArith} (h : ExactOnIntegers fa) :
    fa.sqrt (fa.ofInt 1) = fa.ofInt 1 := by
  simpa using h.sqrt_ofInt 1 (by norm_num) (by norm_num)

theorem scenario_size :
    calculateRasterNodeSize ⟨10, 10, 2⟩ ⟨⟨0, 0⟩, ⟨10, 10⟩⟩ = .ok ⟨1, 1⟩ := by decide

theorem scenario_fallback_origin {fa : FloatArith} (h : ExactOnIntegers fa) :
    fallbackGradient fa ⟨0, 0⟩ = ⟨fa.ofInt 0, fa.ofInt (-1)⟩ := by
  simp (disch := norm_num) [fallbackGradient, normalize, lengthSquared, scenario_sqrt_zero h,
    h.mul_ofInt, h.add_ofInt, h.lt_ofInt, h.le_epsilon]

theorem Grid.bump_columns (g : Grid) (m : Int) (sel : Nat → Nat → Bool) :
    (g.bump m sel).columns = g.columns := rfl

theorem Grid.bump_rows (g : Grid) (m : Int) (sel : Nat → Nat → Bool) :
    (g.bump m sel).rows = g.rows := rfl

theorem getHeatmapGradient_unit_flag (fa : FloatArith) (g : Vec2f fa) (hm : Grid) (x y : Nat)
    (hx1 : 1 ≤ x) (hx2 : x + 2 ≤ hm.columns) (hy1 : 1 ≤ y) (hy2 : y + 2 ≤ hm.rows) :
    ∃ gr, getHeatmapGradient fa g hm ⟨x, y⟩ ⟨1, 1⟩ = .ok (gr, decide (1 < hm.cells x y)) :=
  ⟨_, getHeatmapGradient_unit fa g hm x y hx1 hx2 hy1 hy2⟩

/-- One node step of `resolveOverlap`, read off from its parts: the footprint and its grid
position, the sampled gradient, the clamped offsets, the re-aligned node and the flag of the
second sampling. -/
theorem resolveOverlapNode_eval (fa : FloatArith) (cfg : Config) (dW dH : Int)
    (st : OverlapState) (node node1 : DummyNode) (size nodePos nodePos1 : Vec2i)
    (g0 grad : Vec2f fa) (found found1 : Bool)
    (hdW : dW ≠ 0) (hdH : dH ≠ 0)
    (hsize : calculateRasterNodeSize cfg node = .ok size)
    (hpos : nodePos = ⟨node.position.x.tdiv dW + (st.heatMap.columns : Int).tdiv 2,
      node.position.y.tdiv dH + (st.heatMap.rows : Int).tdiv 2⟩)
    (hinx : ¬ (nodePos.x + size.x > st.heatMap.columns ∨ nodePos.x < 0))
    (hiny : ¬ (nodePos.y + size.y > st.heatMap.rows ∨ nodePos.y < 0))
    (hg0 : getHeatmapGradient fa ⟨fa.ofInt 0, fa.ofInt 0⟩ st.heatMap nodePos size = .ok (g0, found))
    (hgrad : grad =
      if fa.le (lengthSquared fa g0) fa.epsilon && (if found then true else st.overlap) then
        fallbackGradient fa node.position
      else g0)
    (hal : alignNodeOnRaster cfg
      { node with position :=
          ⟨node.position.x + clampOffset (fa.toInt (fa.mul grad.x (fa.ofInt dW))) (2 * dW),
            node.position.y + clampOffset (fa.toInt (fa.mul grad.y (fa.ofInt dH))) (2 * dH)⟩ } =
        .ok node1)
    (hpos1 : nodePos1 = ⟨node1.position.x.tdiv dW + (st.heatMap.columns : Int).tdiv 2,
      node1.position.y.tdiv dH + (st.heatMap.rows : Int).tdiv 2⟩)
    (hg1 : ∃ gr, getHeatmapGradient fa grad
      ((st.heatMap.bump (-1) (coveredBy st.heatMap.columns st.heatMap.rows nodePos size.x size.y)).bump 1
        (coveredBy st.heatMap.columns st.heatMap.rows nodePos1 size.x size.y)) nodePos1 size =
        .ok (gr, found1)) :
    resolveOverlapNode fa cfg dW dH st node =
      .ok (node1,
        ⟨(st.heatMap.bump (-1) (coveredBy st.heatMap.columns st.heatMap.rows nodePos size.x size.y)).bump 1
            (coveredBy st.heatMap.columns st.heatMap.rows nodePos1 size.x size.y),
          if found1 then true else if found then true else st.overlap⟩) := by
  obtain ⟨gr, hg1⟩ := hg1
  subst hpos
  subst hpos1
  unfold resolveOverlapNode
  simp only [hsize]
  rw [if_neg (by omega), if_neg hinx, if_neg hiny]
  simp only [hg0, modifyHeatmapArea_eq, ← hgrad, hal, Grid.bump_columns, Grid.bump_rows, hg1]

theorem scenario_step1 (fa : FloatArith) (h : ExactOnIntegers fa) :
    resolveOverlapNode fa ⟨10, 10, 2⟩ 12 12 ⟨scenarioHeatMap, false⟩ ⟨⟨0, 0⟩, ⟨10, 10⟩⟩ =
      .ok (⟨⟨0, -12⟩, ⟨10, 10⟩⟩, ⟨scenarioMove scenarioHeatMap ⟨2, 2⟩ ⟨2, 1⟩, true⟩) := by
  have c22 : scenarioHeatMap.cells 2 2 = 2 := by decide
  have c12 : scenarioHeatMap.cells 1 2 = 0 := by decide
  have c32 : scenarioHeatMap.cells 3 2 = 0 := by decide
  have c21 : scenarioHeatMap.cells 2 1 = 0 := by decide
  have c23 : scenarioHeatMap.cells 2 3 = 0 := by decide
  have g1 := getHeatmapGradient_unit fa ⟨fa.ofInt 0, fa.ofInt 0⟩ scenarioHeatMap 2 2
    (by decide) (by decide) (by decide) (by decide)
  simp (disch := norm_num) [c22, c12, c32, c21, c23, scenario_sqrt_zero h, h.sub_ofInt, h.add_ofInt] at g1
  exact resolveOverlapNode_eval fa ⟨10, 10, 2⟩ 12 12 ⟨scenarioHeatMap, false⟩
    ⟨⟨0, 0⟩, ⟨10, 10⟩⟩ ⟨⟨0, -12⟩, ⟨10, 10⟩⟩ ⟨1, 1⟩ ⟨2, 2⟩ ⟨2, 1⟩
    ⟨fa.ofInt 0, fa.ofInt 0⟩ ⟨fa.ofInt 0, fa.ofInt (-1)⟩ true false
    (by decide) (by decide) scenario_size (by decide) (by decide) (by decide) g1
    (by
      simp (disch := norm_num) [lengthSquared, h.mul_ofInt, h.add_ofInt, h.le_epsilon,
        scenario_fallback_origin h])
    (by
      simp (disch := norm_num) [h.mul_ofInt, h.toInt_ofInt, clampOffset]
      decide)
    (by decide)
    (getHeatmapGradient_unit_flag fa _ _ 2 1 (by decide) (by decide) (by decide) (by decide))

theorem scenario_step2 (fa : FloatArith) (h : ExactOnIntegers fa) :
    resolveOverlapNode fa ⟨10, 10, 2⟩ 12 12 ⟨scenarioMove scenarioHeatMap ⟨2, 2⟩ ⟨2, 1⟩, true⟩
        ⟨⟨0, 0⟩, ⟨10, 10⟩⟩ =
      .ok (⟨⟨0, 12⟩, ⟨10, 10⟩⟩,
        ⟨scenarioMove (scenarioMove scenarioHeatMap ⟨2, 2⟩ ⟨2, 1⟩) ⟨2, 2⟩ ⟨2, 3⟩, true⟩) := by
  have c22 : (scenarioMove scenarioHeatMap ⟨2, 2⟩ ⟨2, 1⟩).cells 2 2 = 1 := by decide
  have c12 : (scenarioMove scenarioHeatMap ⟨2, 2⟩ ⟨2, 1⟩).cells 1 2 = 0 := by decide
  have c32 : (scenarioMove scenarioHeatMap ⟨2, 2⟩ ⟨2, 1⟩).cells 3 2 = 0 := by decide
  have c21 : (scenarioMove scenarioHeatMap ⟨2, 2⟩ ⟨2, 1⟩).cells 2 1 = 1 := by decide
  have c23 : (scenarioMove scenarioHeatMap ⟨2, 2⟩ ⟨2, 1⟩).cells 2 3 = 0 := by decide
  have g1 := getHeatmapGradient_unit fa ⟨fa.ofInt 0, fa.ofInt 0⟩
    (scenarioMove scenarioHeatMap ⟨2, 2⟩ ⟨2, 1⟩) 2 2 (by decide) (by decide) (by decide) (by decide)
  have m1 : (1 : Int) % (cellModulus : Int) = 1 := by decide
  simp (disch := norm_num) [c22, c12, c32, c21, c23, m1, scenario_sqrt_zero h, scenario_sqrt_one h,
    h.sub_ofInt, h.add_ofInt] at g1
  exact resolveOverlapNode_eval fa ⟨10, 10, 2⟩ 12 12 ⟨scenarioMove scenarioHeatMap ⟨2, 2⟩ ⟨2, 1⟩, true⟩
    ⟨⟨0, 0⟩, ⟨10, 10⟩⟩ ⟨⟨0, 12⟩, ⟨10, 10⟩⟩ ⟨1, 1⟩ ⟨2, 2⟩ ⟨2, 3⟩
    ⟨fa.ofInt 0, fa.ofInt 1⟩ ⟨fa.ofInt 0, fa.ofInt 1⟩ false false
    (by decide) (by decide) scenario_size (by decide) (by decide) (by decide) g1
    (by simp (disch := norm_num) [lengthSquared, h.mul_ofInt, h.add_ofInt, h.le_epsilon])
    (by
      simp (disch := norm_num) [h.mul_ofInt, h.toInt_ofInt, clampOffset]
      decide)
    (by decide)
    (getHeatmapGradient_unit_flag fa _ _ 2 3 (by decide) (by decide) (by decide) (by decide))

theorem scenario_size_up :
    calculateRasterNodeSize ⟨10, 10, 2⟩ ⟨⟨0, -12⟩, ⟨10, 10⟩⟩ = .ok ⟨1, 1⟩ := by decide

theorem scenario_size_down :
    calculateRasterNodeSize ⟨10, 10, 2⟩ ⟨⟨0, 12⟩, ⟨10, 10⟩⟩ = .ok ⟨1, 1⟩ := by decide

theorem scenario_step3 (fa : FloatArith) (h : ExactOnIntegers fa) :
    resolveOverlapNode fa ⟨10, 10, 2⟩ 12 12
        ⟨scenarioMove (scenarioMove scenarioHeatMap ⟨2, 2⟩ ⟨2, 1⟩) ⟨2, 2⟩ ⟨2, 3⟩, false⟩
        ⟨⟨0, -12⟩, ⟨10, 10⟩⟩ =
      .ok (⟨⟨0, -12⟩, ⟨10, 10⟩⟩,
        ⟨scenarioMove (scenarioMove (scenarioMove scenarioHeatMap ⟨2, 2⟩ ⟨2, 1⟩) ⟨2, 2⟩ ⟨2, 3⟩)
            ⟨2, 1⟩ ⟨2, 1⟩, false⟩) := by
  have c21 : (scenarioMove (scenarioMove scenarioHeatMap ⟨2, 2⟩ ⟨2, 1⟩) ⟨2, 2⟩ ⟨2, 3⟩).cells 2 1 = 1 := by
    decide
  have c11 : (scenarioMove (scenarioMove scenarioHeatMap ⟨2, 2⟩ ⟨2, 1⟩) ⟨2, 2⟩ ⟨2, 3⟩).cells 1 1 = 0 := by
    decide
  have c31 : (scenarioMove (scenarioMove scenarioHeatMap ⟨2, 2⟩ ⟨2, 1⟩) ⟨2, 2⟩ ⟨2, 3⟩).cells 3 1 = 0 := by
    decide
  have c20 : (scenarioMove (scenarioMove scenarioHeatMap ⟨2, 2⟩ ⟨2, 1⟩) ⟨2, 2⟩ ⟨2, 3⟩).cells 2 0 = 0 := by
    decide
  have c22 : (scenarioMove (scenarioMove scenarioHeatMap ⟨2, 2⟩ ⟨2, 1⟩) ⟨2, 2⟩ ⟨2, 3⟩).cells 2 2 = 0 := by
    decide
  have g1 := getHeatmapGradient_unit fa ⟨fa.ofInt 0, fa.ofInt 0⟩
    (scenarioMove (scenarioMove scenarioHeatMap ⟨2, 2⟩ ⟨2, 1⟩) ⟨2, 2⟩ ⟨2, 3⟩) 2 1
    (by decide) (by decide) (by decide) (by decide)
  simp (disch := norm_num) [c21, c11, c31, c20, c22, scenario_sqrt_zero h, h.sub_ofInt,
    h.add_ofInt] at g1
  exact resolveOverlapNode_eval fa ⟨10, 10, 2⟩ 12 12
    ⟨scenarioMove (scenarioMove scenarioHeatMap ⟨2, 2⟩ ⟨2, 1⟩) ⟨2, 2⟩ ⟨2, 3⟩, false⟩
    ⟨⟨0, -12⟩, ⟨10, 10⟩⟩ ⟨⟨0, -12⟩, ⟨10, 10⟩⟩ ⟨1, 1⟩ ⟨2, 1⟩ ⟨2, 1⟩
    ⟨fa.ofInt 0, fa.ofInt 0⟩ ⟨fa.ofInt 0, fa.ofInt 0⟩ false false
    (by decide) (by decide) scenario_size_up (by decide) (by decide) (by decide) g1
    (by simp)
    (by
      simp (disch := norm_num) [h.mul_ofInt, h.toInt_ofInt, clampOffset]
      decide)
    (by decide)
    (getHeatmapGradient_unit_flag fa _ _ 2 1 (by decide) (by decide) (by decide) (by decide))

theorem scenario_step4 (fa : FloatArith) (h : ExactOnIntegers fa) :
    resolveOverlapNode fa ⟨10, 10, 2⟩ 12 12
        ⟨scenarioMove (scenarioMove (scenarioMove scenarioHeatMap ⟨2, 2⟩ ⟨2, 1⟩) ⟨2, 2⟩ ⟨2, 3⟩)
          ⟨2, 1⟩ ⟨2, 1⟩, false⟩
        ⟨⟨0, 12⟩, ⟨10, 10⟩⟩ =
      .ok (⟨⟨0, 12⟩, ⟨10, 10⟩⟩,
        ⟨scenarioMove (scenarioMove (scenarioMove (scenarioMove scenarioHeatMap ⟨2, 2⟩ ⟨2, 1⟩)
            ⟨2, 2⟩ ⟨2, 3⟩) ⟨2, 1⟩ ⟨2, 1⟩) ⟨2, 3⟩ ⟨2, 3⟩, false⟩) := by
  have c23 : (scenarioMove (scenarioMove (scenarioMove scenarioHeatMap ⟨2, 2⟩ ⟨2, 1⟩) ⟨2, 2⟩ ⟨2, 3⟩)
      ⟨2, 1⟩ ⟨2, 1⟩).cells 2 3 = 1 := by decide
  have c13 : (scenarioMove (scenarioMove (scenarioMove scenarioHeatMap ⟨2, 2⟩ ⟨2, 1⟩) ⟨2, 2⟩ ⟨2, 3⟩)
      ⟨2, 1⟩ ⟨2, 1⟩).cells 1 3 = 0 := by decide
  have c33 : (scenarioMove (scenarioMove (scenarioMove scenarioHeatMap ⟨2, 2⟩ ⟨2, 1⟩) ⟨2, 2⟩ ⟨2, 3⟩)
      ⟨2, 1⟩ ⟨2, 1⟩).cells 3 3 = 0 := by decide
  have c22 : (scenarioMove (scenarioMove (scenarioMove scenarioHeatMap ⟨2, 2⟩ ⟨2, 1⟩) ⟨2, 2⟩ ⟨2, 3⟩)
      ⟨2, 1⟩ ⟨2, 1⟩).cells 2 2 = 0 := by decide
  have c24 : (scenarioMove (scenarioMove (scenarioMove scenarioHeatMap ⟨2, 2⟩ ⟨2, 1⟩) ⟨2, 2⟩ ⟨2, 3⟩)
      ⟨2, 1⟩ ⟨2, 1⟩).cells 2 4 = 0 := by decide
  have g1 := getHeatmapGradient_unit fa ⟨fa.ofInt 0, fa.ofInt 0⟩
    (scenarioMove (scenarioMove (scenarioMove scenarioHeatMap ⟨2, 2⟩ ⟨2, 1⟩) ⟨2, 2⟩ ⟨2, 3⟩)
      ⟨2, 1⟩ ⟨2, 1⟩) 2 3 (by decide) (by decide) (by decide) (by decide)
  simp (disch := norm_num) [c23, c13, c33, c22, c24, scenario_sqrt_zero h, h.sub_ofInt,
    h.add_ofInt] at g1
  exact resolveOverlapNode_eval fa ⟨10, 10, 2⟩ 12 12
    ⟨scenarioMove (scenarioMove (scenarioMove scenarioHeatMap ⟨2, 2⟩ ⟨2, 1⟩) ⟨2, 2⟩ ⟨2, 3⟩)
      ⟨2, 1⟩ ⟨2, 1⟩, false⟩
    ⟨⟨0, 12⟩, ⟨10, 10⟩⟩ ⟨⟨0, 12⟩, ⟨10, 10⟩⟩ ⟨1, 1⟩ ⟨2, 3⟩ ⟨2, 3⟩
    ⟨fa.ofInt 0, fa.ofInt 0⟩ ⟨fa.ofInt 0, fa.ofInt 0⟩ false false
    (by decide) (by decide) scenario_size_down (by decide) (by decide) (by decide) g1
    (by simp)
    (by
      simp (disch := norm_num) [h.mul_ofInt, h.toInt_ofInt, clampOffset]
      decide)
    (by decide)
    (getHeatmapGradient_unit_flag fa _ _ 2 3 (by decide) (by decide) (by decide) (by decide))

theorem scenario_resolveOverlap (fa : FloatArith) (h : ExactOnIntegers fa) :
    ∃ st, resolveOverlap fa ⟨10, 10, 2⟩ [⟨⟨0, 0⟩, ⟨10, 10⟩⟩, ⟨⟨0, 0⟩, ⟨10, 10⟩⟩] scenarioHeatMap 12 12 =
      .ok ([⟨⟨0, -12⟩, ⟨10, 10⟩⟩, ⟨⟨0, 12⟩, ⟨10, 10⟩⟩], st, 2) := by
  refine ⟨⟨scenarioMove (scenarioMove (scenarioMove (scenarioMove scenarioHeatMap ⟨2, 2⟩ ⟨2, 1⟩)
    ⟨2, 2⟩ ⟨2, 3⟩) ⟨2, 1⟩ ⟨2, 1⟩) ⟨2, 3⟩ ⟨2, 3⟩, false⟩, ?_⟩
  unfold resolveOverlap maxIterations
  simp only [resolveOverlapLoop, resolveOverlapPass, scenario_step1 fa h, scenario_step2 fa h,
    scenario_step3 fa h, scenario_step4 fa h, if_true]
  rfl

theorem scenario_buildHeatMap :
    buildHeatMap ⟨10, 10, 2⟩ [⟨⟨0, 0⟩, ⟨10, 10⟩⟩, ⟨⟨0, 0⟩, ⟨10, 10⟩⟩] 12 12 10 10 =
      .ok scenarioHeatMap := by
  have e1 : heatMapExtent 10 2 12 = ((5 : Nat) : Int) := by decide
  have hnode := fun hm hc hr => buildHeatMapNode_eq ⟨10, 10, 2⟩ 12 12 5 5 hm ⟨⟨0, 0⟩, ⟨10, 10⟩⟩ 1 1
    scenario_size hc hr
  have hin : (0 : Int) ≤ Int.tdiv 0 12 + ((5 : Nat) : Int).tdiv 2 ∧
      Int.tdiv 0 12 + ((5 : Nat) : Int).tdiv 2 + ((1 : Nat) : Int) ≤ ((5 : Nat) : Int) := by decide
  simp only [if_pos (And.intro hin.1 (And.intro hin.2 hin))] at hnode
  unfold buildHeatMap
  rw [if_neg (by decide)]
  simp only [List.length_cons, List.length_nil, e1, buildHeatMapLoop]
  rw [hnode _ rfl rfl]
  simp only
  rw [hnode _ rfl rfl]
  rfl

theorem scenario_doPostprocessing (fa : FloatArith) (h : ExactOnIntegers fa) :
    doPostprocessing fa ⟨10, 10, 2⟩ [⟨⟨0, 0⟩, ⟨10, 10⟩⟩, ⟨⟨0, 0⟩, ⟨10, 10⟩⟩] =
      .ok [⟨⟨0, -12⟩, ⟨10, 10⟩⟩, ⟨⟨0, 12⟩, ⟨10, 10⟩⟩] := by
  obtain ⟨st, hst⟩ := scenario_resolveOverlap fa h
  have hal : alignAll ⟨10, 10, 2⟩ [⟨⟨0, 0⟩, ⟨10, 10⟩⟩, ⟨⟨0, 0⟩, ⟨10, 10⟩⟩] =
      .ok [⟨⟨0, 0⟩, ⟨10, 10⟩⟩, ⟨⟨0, 0⟩, ⟨10, 10⟩⟩] := by decide
  have e12 : ((10 : Nat) : Int) + ((2 : Nat) : Int) = 12 := by decide
  unfold doPostprocessing
  rw [if_neg (by decide)]
  simp only [scenario_massLoop fa h, scenario_resolveOutliers fa h, hal, e12,
    scenario_buildHeatMap, hst]

/-- C2: the scenario of two coincident unit nodes. For the node list `[A, B]` with both nodes
at `(0, 0)` and of size `(10, 10)`, `cellWidth = cellHeight = 10` and `cellPadding = 2`,
under every float arithmetic that is exact on small integers, `doPostprocessing` returns
with `A` at `(0, -12)` and `B` at `(0, 12)`: the positions differ by at least one pitch (12)
on the y axis, and all four coordinates are multiples of 12. -/
theorem doPostprocessing_two_coincident (fa : FloatArith) (h : ExactOnIntegers fa) :
    ∃ a b : DummyNode,
      doPostprocessing fa ⟨10, 10, 2⟩ [⟨⟨0, 0⟩, ⟨10, 10⟩⟩, ⟨⟨0, 0⟩, ⟨10, 10⟩⟩] = .ok [a, b] ∧
      a.position = ⟨0, -12⟩ ∧ b.position = ⟨0, 12⟩ ∧
      (12 ≤ |a.position.x - b.position.x| ∨ 12 ≤ |a.position.y - b.position.y|) ∧
      (12 : Int) ∣ a.position.x ∧ (12 : Int) ∣ a.position.y ∧
      (12 : Int) ∣ b.position.x ∧ (12 : Int) ∣ b.position.y :=
  ⟨⟨⟨0, -12⟩, ⟨10, 10⟩⟩, ⟨⟨0, 12⟩, ⟨10, 10⟩⟩, scenario_doPostprocessing fa h, rfl, rfl,
    Or.inr (by decide), by decide, by decide, by decide, by decide⟩

theorem doPostprocessing_two_coincident_witness :
    ExactOnIntegers intArith ∧
      ∃ a b : DummyNode,
        doPostprocessing intArith ⟨10, 10, 2⟩ [⟨⟨0, 0⟩, ⟨10, 10⟩⟩, ⟨⟨0, 0⟩, ⟨10, 10⟩⟩] = .ok [a, b] ∧
        a.position = ⟨0, -12⟩ ∧ b.position = ⟨0, 12⟩ ∧
        (12 ≤ |a.position.x - b.position.x| ∨ 12 ≤ |a.position.y - b.position.y|) ∧
        (12 : Int) ∣ a.position.x ∧ (12 : Int) ∣ a.position.y ∧
        (12 : Int) ∣ b.position.x ∧ (12 : Int) ∣ b.position.y :=
  ⟨intArith_exact, doPostprocessing_two_coincident intArith intArith_exact⟩

/-! ## Termination, extents and bounds -/

theorem resolveOverlapLoop_passes (fa : FloatArith) (cfg : Config) {dW dH : Int}
    (hdW : dW ≠ 0) (hdH : dH ≠ 0)
    (hw : 0 < cfg.cellWidth + cfg.cellPadding) (hh : 0 < cfg.cellHeight + cfg.cellPadding) :
    ∀ (remaining : Nat) (nodes : List DummyNode) (st : OverlapState) (p : Nat),
      ∃ result stf pf, resolveOverlapLoop fa cfg dW dH remaining nodes st p = .ok (result, stf, pf) ∧
        p ≤ pf ∧ pf ≤ p + remaining ∧ (pf < p + remaining → stf.overlap = false) ∧
        (st.overlap = true → 0 < remaining → p < pf) ∧
        ∀ k, p + k < pf → ∃ nk stk,
          resolveOverlapLoop fa cfg dW dH k nodes st p = .ok (nk, stk, p + k) ∧ stk.overlap = true := by
  intro remaining
  induction remaining with
  | zero =>
    intro nodes st p
    exact ⟨nodes, st, p, rfl, le_rfl, le_rfl, fun h => absurd h (by omega), fun _ h => absurd h (by omega),
      fun k hk => absurd hk (by omega)⟩
  | succ r ih =>
    intro nodes st p
    by_cases hov : st.overlap = true
    · obtain ⟨⟨n1, st1⟩, h1⟩ := resolveOverlapPass_ok fa cfg hdW hdH hw hh nodes ⟨st.heatMap, false⟩
      obtain ⟨result, stf, pf, hrun, hle, hup, hearly, _, hprev⟩ := ih n1 st1 (p + 1)
      refine ⟨result, stf, pf, ?_, by omega, by omega, fun h => hearly (by omega), fun _ _ => by omega, ?_⟩
      · simp only [resolveOverlapLoop, hov, if_true, h1, hrun]
      · intro k hk
        cases k with
        | zero => exact ⟨nodes, st, rfl, hov⟩
        | succ j =>
          obtain ⟨nk, stk, hk1, hk2⟩ := hprev j (by omega)
          refine ⟨nk, stk, ?_, hk2⟩
          simp only [resolveOverlapLoop, hov, if_true, h1, hk1]
          congr 3; omega
    · refine ⟨nodes, st, p, ?_, le_rfl, by omega, fun _ => by simpa using hov,
        fun h => absurd h hov, fun k hk => absurd hk (by omega)⟩
      simp only [resolveOverlapLoop, hov]
      rfl

/-- C12: overlap loop termination. For every node list, every grid, and positive pitches and
cell sizes, `resolveOverlap` returns after at least 1 and at most 15 passes over the node
list. It stops before the 15th pass exactly when a full pass ends with the overlap flag
false: a run of fewer than 15 passes ends with the flag false, and after each number of
passes below the final one the flag was true. -/
theorem resolveOverlap_terminates (fa : FloatArith) (cfg : Config) (nodes : List DummyNode)
    (heatMap : Grid) (divisorWidth divisorHeight : Int)
    (hdW : 0 < divisorWidth) (hdH : 0 < divisorHeight)
    (hw : 0 < cfg.cellWidth + cfg.cellPadding) (hh : 0 < cfg.cellHeight + cfg.cellPadding) :
    ∃ result st passes,
      resolveOverlap fa cfg nodes heatMap divisorWidth divisorHeight = .ok (result, st, passes) ∧
      1 ≤ passes ∧ passes ≤ 15 ∧ (passes < 15 → st.overlap = false) ∧
      ∀ k, k < passes → ∃ nk stk,
        resolveOverlapLoop fa cfg divisorWidth divisorHeight k nodes ⟨heatMap, true⟩ 0 =
          .ok (nk, stk, k) ∧ stk.overlap = true := by
  obtain ⟨result, stf, pf, hrun, _, hup, hearly, hpos, hprev⟩ :=
    resolveOverlapLoop_passes fa cfg (ne_of_gt hdW) (ne_of_gt hdH) hw hh maxIterations nodes
      ⟨heatMap, true⟩ 0
  have hmax : maxIterations = 15 := rfl
  refine ⟨result, stf, pf, hrun, ?_, by omega, fun h => hearly (by omega), ?_⟩
  · have := hpos rfl (by decide)
    omega
  · intro k hk
    obtain ⟨nk, stk, h1, h2⟩ := hprev k (by omega)
    exact ⟨nk, stk, by simpa using h1, h2⟩

theorem resolveOverlap_terminates_witness :
    ∃ result st passes,
      resolveOverlap intArith ⟨10, 10, 2⟩ [⟨⟨0, 0⟩, ⟨10, 10⟩⟩, ⟨⟨0, 0⟩, ⟨10, 10⟩⟩] scenarioHeatMap 12 12 =
        .ok (result, st, passes) ∧
      1 ≤ passes ∧ passes ≤ 15 ∧ (passes < 15 → st.overlap = false) ∧
      ∀ k, k < passes → ∃ nk stk,
        resolveOverlapLoop intArith ⟨10, 10, 2⟩ 12 12 k [⟨⟨0, 0⟩, ⟨10, 10⟩⟩, ⟨⟨0, 0⟩, ⟨10, 10⟩⟩]
          ⟨scenarioHeatMap, true⟩ 0 = .ok (nk, stk, k) ∧ stk.overlap = true :=
  resolveOverlap_terminates intArith ⟨10, 10, 2⟩ [⟨⟨0, 0⟩, ⟨10, 10⟩⟩, ⟨⟨0, 0⟩, ⟨10, 10⟩⟩]
    scenarioHeatMap 12 12 (by decide) (by decide) (by decide) (by decide)

/-- C15, the code at the failing input: for the sizes (10,10) then (20,30) the first loop of
`doPostprocessing` ends with `maxNodeWidth = 20` but `maxNodeHeight = 0`, because the height
is only looked at when the width did not grow (`else if`, line 44); the heat map built from
these extents has no rows. -/
theorem massLoop_misses_height (fa : FloatArith) :
    (massLoop fa [⟨⟨0, 0⟩, ⟨10, 10⟩⟩, ⟨⟨0, 0⟩, ⟨20, 30⟩⟩]).maxNodeWidth = 20 ∧
      (massLoop fa [⟨⟨0, 0⟩, ⟨10, 10⟩⟩, ⟨⟨0, 0⟩, ⟨20, 30⟩⟩]).maxNodeHeight = 0 ∧
      heatMapExtent (massLoop fa [⟨⟨0, 0⟩, ⟨10, 10⟩⟩, ⟨⟨0, 0⟩, ⟨20, 30⟩⟩]).maxNodeHeight 2 12 = 0 := by
  simp [massLoop, massStep, heatMapExtent]

theorem rasterAxis_cases (cell padding : Nat) (size : Int) :
    rasterAxis cell padding size = .error .diverges ∨
      ∃ n : Nat, rasterAxis cell padding size = .ok (n : Int) := by
  unfold rasterAxis
  cases rasterAxisLoop (cell : Int) (padding : Int) size.toNat size 0 with
  | none => exact Or.inl rfl
  | some n => exact Or.inr ⟨n, rfl⟩

theorem calculateRasterNodeSize_cases (cfg : Config) (node : DummyNode) :
    calculateRasterNodeSize cfg node = .error .diverges ∨
      ∃ sx sy : Nat, calculateRasterNodeSize cfg node = .ok ⟨(sx : Int), (sy : Int)⟩ := by
  unfold calculateRasterNodeSize
  rcases rasterAxis_cases cfg.cellWidth cfg.cellPadding node.size.x with hx | ⟨sx, hx⟩
  · rw [hx]; exact Or.inl rfl
  · rcases rasterAxis_cases cfg.cellHeight cfg.cellPadding node.size.y with hy | ⟨sy, hy⟩
    · rw [hx, hy]; exact Or.inl rfl
    · rw [hx, hy]; exact Or.inr ⟨sx, sy, rfl⟩

theorem gradientCell_flag (fa : FloatArith) (heatMap : Grid) (corner size : Vec2i) (i j : Nat)
    (st : Vec2f fa × Bool) :
    ∃ st1, gradientCell fa heatMap corner size i j st = .ok st1 ∧
      (st1.2 = true ↔ st.2 = true ∨ sampledOverlap heatMap (corner.x + i) (corner.y + j)) := by
  unfold gradientCell sampledOverlap
  simp only
  by_cases h1 : corner.x + (i : Int) < 1 ∨ corner.x + (i : Int) > (heatMap.columns : Int) - 2
  · refine ⟨st, by rw [if_pos h1], ?_⟩
    constructor
    · exact fun h => Or.inl h
    · rintro (h | h)
      · exact h
      · omega
  · rw [if_neg h1]
    by_cases h2 : corner.y + (j : Int) < 1 ∨ corner.y + (j : Int) > (heatMap.rows : Int) - 2
    · refine ⟨st, by rw [if_pos h2], ?_⟩
      constructor
      · exact fun h => Or.inl h
      · rintro (h | h)
        · exact h
        · omega
    · rw [if_neg h2]
      rw [Grid.getValue_ok (by unfold Grid.inRange; omega),
        Grid.getValue_ok (by unfold Grid.inRange; omega),
        Grid.getValue_ok (by unfold Grid.inRange; omega),
        Grid.getValue_ok (by unfold Grid.inRange; omega),
        Grid.getValue_ok (by unfold Grid.inRange; omega)]
      refine ⟨_, rfl, ?_⟩
      simp only
      by_cases hv : 1 < heatMap.cells (corner.x + (i : Int)).toNat (corner.y + (j : Int)).toNat
      · simp only [hv, if_true, true_iff]
        exact Or.inr ⟨by omega, by omega, by omega, by omega, trivial⟩
      · simp only [hv, if_false, and_false, or_false]

theorem getHeatmapGradient_flag (fa : FloatArith) (outGradient : Vec2f fa) (heatMap : Grid)
    (corner size : Vec2i) :
    ∃ gr flag, getHeatmapGradient fa outGradient heatMap corner size = .ok (gr, flag) ∧
      (flag = true ↔ ∃ i j : Nat, (i : Int) < size.x ∧ (j : Int) < size.y ∧
        sampledOverlap heatMap (corner.x + i) (corner.y + j)) := by
  unfold getHeatmapGradient
  obtain ⟨r, hr, hP⟩ := forLoop_invariant
    (fun i st => forLoop size.y (fun j st1 => gradientCell fa heatMap corner size i j st1) st)
    (fun i st => st.2 = true ↔ ∃ i1 j : Nat, i1 < i ∧ (j : Int) < size.y ∧
      sampledOverlap heatMap (corner.x + i1) (corner.y + j)) size.x (outGradient, false)
    (by simp)
    (by
      intro i st hi hP
      obtain ⟨r, hr, hQ⟩ := forLoop_invariant
        (fun j st1 => gradientCell fa heatMap corner size i j st1)
        (fun j st1 => st1.2 = true ↔ st.2 = true ∨ ∃ j1 : Nat, j1 < j ∧
          sampledOverlap heatMap (corner.x + i) (corner.y + j1)) size.y st
        (by simp)
        (by
          intro j st1 hj hQ
          obtain ⟨st2, hst2, hflag⟩ := gradientCell_flag fa heatMap corner size i j st1
          refine ⟨st2, hst2, ?_⟩
          show st2.2 = true ↔ _
          rw [hflag, hQ]
          constructor
          · rintro ((h | ⟨j1, hj1, h⟩) | h)
            · exact Or.inl h
            · exact Or.inr ⟨j1, by omega, h⟩
            · exact Or.inr ⟨j, by omega, h⟩
          · rintro (h | ⟨j1, hj1, h⟩)
            · exact Or.inl (Or.inl h)
            · rcases Nat.lt_succ_iff_lt_or_eq.mp hj1 with hlt | heq
              · exact Or.inl (Or.inr ⟨j1, hlt, h⟩)
              · subst heq; exact Or.inr h)
      refine ⟨r, hr, ?_⟩
      show r.2 = true ↔ _
      rw [hQ, hP]
      constructor
      · rintro (⟨i1, j, hi1, hj, h⟩ | ⟨j1, hj1, h⟩)
        · exact ⟨i1, j, by omega, hj, h⟩
        · exact ⟨i, j1, by omega, by omega, h⟩
      · rintro ⟨i1, j, hi1, hj, h⟩
        rcases Nat.lt_succ_iff_lt_or_eq.mp hi1 with hlt | heq
        · exact Or.inl ⟨i1, j, hlt, hj, h⟩
        · subst heq; exact Or.inr ⟨j, by omega, h⟩)
  refine ⟨r.1, r.2, hr, ?_⟩
  rw [hP]
  constructor
  · rintro ⟨i1, j, hi1, hj, h⟩
    exact ⟨i1, j, by omega, hj, h⟩
  · rintro ⟨i1, j, hi1, hj, h⟩
    exact ⟨i1, j, by omega, hj, h⟩

/-- C19, the claim fails: in a 3 by 3 grid whose corner cell `(0, 0)` holds 2, the footprint
of size `(1, 1)` at corner `(0, 0)` lies inside the grid and has a cell with count above 1,
yet `getHeatmapGradient` returns false. -/
theorem getHeatmapGradient_border_counterexample :
    (getHeatmapGradient intArith ⟨intArith.ofInt 0, intArith.ofInt 0⟩ cornerOverlapGrid
        ⟨0, 0⟩ ⟨1, 1⟩).map Prod.snd = .ok false ∧
      cornerOverlapGrid.inRange 0 0 ∧ 1 < cornerOverlapGrid.cells 0 0 := by
  decide

/-- C19 as amended: `getHeatmapGradient` flags overlap for a cell with count above 1 anywhere
in the sampled part of the footprint. For every float arithmetic, incoming gradient, grid,
corner and footprint size the call returns, and the returned boolean is true if and only if
at least one cell of the footprint rectangle that is not on the outermost border of the grid
(`1 ≤ x ≤ columns - 2`, `1 ≤ y ≤ rows - 2`) has count above 1. -/
theorem getHeatmapGradient_flags_sampled (fa : FloatArith) (outGradient : Vec2f fa)
    (heatMap : Grid) (corner size : Vec2i) :
    ∃ gr flag, getHeatmapGradient fa outGradient heatMap corner size = .ok (gr, flag) ∧
      (flag = true ↔ ∃ i j : Nat, (i : Int) < size.x ∧ (j : Int) < size.y ∧
        1 ≤ corner.x + i ∧ corner.x + i ≤ (heatMap.columns : Int) - 2 ∧
        1 ≤ corner.y + j ∧ corner.y + j ≤ (heatMap.rows : Int) - 2 ∧
        1 < heatMap.cells (corner.x + i).toNat (corner.y + j).toNat) :=
  getHeatmapGradient_flag fa outGradient heatMap corner size

/-! ## Displacement in the overlap resolution -/

theorem divZeroArith_exact (q : Int) : ExactOnIntegers (divZeroArith q) where
  add_ofInt := fun _ _ _ _ _ => rfl
  sub_ofInt := fun _ _ _ _ _ => rfl
  mul_ofInt := fun _ _ _ _ _ => rfl
  div_ofInt := fun a b hb _ _ => by
    show (if b = 0 then q else (a * b).tdiv b) = a
    rw [if_neg hb]; exact Int.mul_tdiv_cancel a hb
  sqrt_ofInt := intArith_exact.sqrt_ofInt
  toInt_ofInt := fun _ _ => rfl
  lt_ofInt := fun _ _ _ _ => rfl
  le_ofInt := fun _ _ _ _ => rfl
  eq_ofInt := fun _ _ _ _ => rfl
  le_epsilon := fun _ _ => rfl

/-- C13, the code at the failing input: two nodes of size `(0, 0)` at `(0, 0)` and `(12, 0)`.
The total mass is zero and line 54 divides by it all the same: the positions after
`doPostprocessing` are `(0,0), (0,0)` when the quotient by zero converts to 0 and
`(12,12), (12,0)` when it converts to 12, so the outlier phase moves a node either way and
what it does depends on the quotient by zero. -/
theorem doPostprocessing_divides_by_zero_mass :
    (massLoop (divZeroArith 12) [⟨⟨0, 0⟩, ⟨0, 0⟩⟩, ⟨⟨12, 0⟩, ⟨0, 0⟩⟩]).totalMass =
        (divZeroArith 12).ofInt 0 ∧
      doPostprocessing (divZeroArith 0) ⟨10, 10, 2⟩ [⟨⟨0, 0⟩, ⟨0, 0⟩⟩, ⟨⟨12, 0⟩, ⟨0, 0⟩⟩] =
        .ok [⟨⟨0, 0⟩, ⟨0, 0⟩⟩, ⟨⟨0, 0⟩, ⟨0, 0⟩⟩] ∧
      doPostprocessing (divZeroArith 12) ⟨10, 10, 2⟩ [⟨⟨0, 0⟩, ⟨0, 0⟩⟩, ⟨⟨12, 0⟩, ⟨0, 0⟩⟩] =
        .ok [⟨⟨12, 12⟩, ⟨0, 0⟩⟩, ⟨⟨12, 0⟩, ⟨0, 0⟩⟩] :=
  ⟨rfl, by decide, by decide⟩

/-- C17, the code at the failing input: nodes `A`, `B` at `(0, 0)` and `C` at `(36, 0)`, all
of size `(10, 10)`, pitch 12. When `C` is reached in the first pass its own sampling returns
false with a zero gradient (its cell holds 1, the neighbours 0), but the flag is still true
from `A`; the pass ends with `C` moved to `(24, 0)`. -/
theorem fallback_moves_isolated_node :
    (buildHeatMap ⟨10, 10, 2⟩
        [⟨⟨0, 0⟩, ⟨10, 10⟩⟩, ⟨⟨0, 0⟩, ⟨10, 10⟩⟩, ⟨⟨36, 0⟩, ⟨10, 10⟩⟩] 12 12 10 10).bind
        (fun hm => (resolveOverlapPass intArith ⟨10, 10, 2⟩ 12 12
          [⟨⟨0, 0⟩, ⟨10, 10⟩⟩, ⟨⟨0, 0⟩, ⟨10, 10⟩⟩] ⟨hm, false⟩).bind
          (fun r => (getHeatmapGradient intArith ⟨intArith.ofInt 0, intArith.ofInt 0⟩ r.2.heatMap
            ⟨8, 5⟩ ⟨1, 1⟩).map
            (fun g => (intArith.toInt g.1.x, intArith.toInt g.1.y, g.2, r.2.overlap)))) =
        .ok (0, 0, false, true) ∧
      (buildHeatMap ⟨10, 10, 2⟩
        [⟨⟨0, 0⟩, ⟨10, 10⟩⟩, ⟨⟨0, 0⟩, ⟨10, 10⟩⟩, ⟨⟨36, 0⟩, ⟨10, 10⟩⟩] 12 12 10 10).bind
        (fun hm => (resolveOverlapPass intArith ⟨10, 10, 2⟩ 12 12
          [⟨⟨0, 0⟩, ⟨10, 10⟩⟩, ⟨⟨0, 0⟩, ⟨10, 10⟩⟩, ⟨⟨36, 0⟩, ⟨10, 10⟩⟩] ⟨hm, false⟩).map Prod.fst) =
        .ok [⟨⟨0, -12⟩, ⟨10, 10⟩⟩, ⟨⟨0, 12⟩, ⟨10, 10⟩⟩, ⟨⟨24, 0⟩, ⟨10, 10⟩⟩] := by
  decide

/-! ## The directional ray cast -/

theorem rayCastLoop_stays (fuel : Nat) (length : Vec2f intArith) :
    rayCastLoop intRayCastArith coveredGrid (0 : Int) (0 : Int) 1 fuel (1 : Int) (1 : Int) length =
      .ok none := by
  induction fuel generalizing length with
  | zero => rfl
  | succ n ih =>
    have hget : coveredGrid.getValue (intRayCastArith.toInt (1 : Int))
        (intRayCastArith.toInt (1 : Int)) = .ok 1 := by decide
    simp only [rayCastLoop, hget]
    exact ih _

/-- C14, the code at the failing inputs, in a 3 by 3 grid whose cells all hold 1, from the
start position `(1, 1)` with threshold 1: in direction `(1, 0)` the second read is at
`(3, 1)`, outside the grid, whatever the number of iterations allowed; in direction `(0, 0)`
the walk reads the cell `(1, 1)` again and again and never returns. -/
theorem heatMapRayCast_leaves_grid_or_runs_forever :
    (∀ fuel : Nat, heatMapRayCast intRayCastArith (fuel + 2) coveredGrid
        ⟨(1 : Int), (1 : Int)⟩ ⟨(1 : Int), (0 : Int)⟩ 1 = .error .outOfRange) ∧
      (∀ fuel : Nat, heatMapRayCast intRayCastArith fuel coveredGrid
        ⟨(1 : Int), (1 : Int)⟩ ⟨(0 : Int), (0 : Int)⟩ 1 = .ok none) := by
  constructor
  · intro fuel
    rfl
  · intro fuel
    exact rayCastLoop_stays fuel _

/-! ## Counts stay positive during the overlap resolution -/

theorem calculateRasterNodeSize_congr (cfg : Config) {node node1 : DummyNode}
    (h : node1.size = node.size) :
    calculateRasterNodeSize cfg node1 = calculateRasterNodeSize cfg node := by
  unfold calculateRasterNodeSize
  rw [h]

theorem resolveOverlapNode_cases {fa : FloatArith} {cfg : Config} {dW dH : Int}
    {st st1 : OverlapState} {node node1 : DummyNode}
    (h : resolveOverlapNode fa cfg dW dH st node = .ok (node1, st1)) :
    (node1 = node ∧ st1 = st ∧
        nodeInside cfg dW dH st.heatMap.columns st.heatMap.rows node = false) ∨
      ∃ size, calculateRasterNodeSize cfg node = .ok size ∧
        nodeInside cfg dW dH st.heatMap.columns st.heatMap.rows node = true ∧
        node1.size = node.size ∧
        st1.heatMap =
          (st.heatMap.bump (-1) (coveredBy st.heatMap.columns st.heatMap.rows
            (gridPos dW dH st.heatMap.columns st.heatMap.rows node) size.x size.y)).bump 1
            (coveredBy st.heatMap.columns st.heatMap.rows
              (gridPos dW dH st.heatMap.columns st.heatMap.rows node1) size.x size.y) := by
  unfold resolveOverlapNode at h
  simp only at h
  split at h
  · exact absurd h (by simp)
  · split at h
    · exact absurd h (by simp)
    · rename_i size hsize
      split at h
      · rename_i hout
        injection h with h; injection h with h1 h2
        refine Or.inl ⟨h1.symm, h2.symm, ?_⟩
        unfold nodeInside gridPos
        simp only [hsize, decide_eq_false_iff_not]
        omega
      · rename_i hinx
        split at h
        · rename_i hout
          injection h with h; injection h with h1 h2
          refine Or.inl ⟨h1.symm, h2.symm, ?_⟩
          unfold nodeInside gridPos
          simp only [hsize, decide_eq_false_iff_not]
          omega
        · rename_i hiny
          split at h
          · exact absurd h (by simp)
          · simp only [modifyHeatmapArea_eq] at h
            split at h
            · exact absurd h (by simp)
            · rename_i node2 hal
              split at h
              · exact absurd h (by simp)
              · injection h with h; injection h with h1 h2
                subst h1
                refine Or.inr ⟨size, hsize, ?_, (alignNodeOnRaster_aligned hal).2, ?_⟩
                · unfold nodeInside gridPos
                  simp only [hsize, decide_eq_true_eq]
                  omega
                · rw [← h2]
                  rfl

theorem nodeCovers_of_size {cfg : Config} {dW dH : Int} {W H : Nat} {node : DummyNode}
    {size : Vec2i} (hsize : calculateRasterNodeSize cfg node = .ok size) (a b : Nat) :
    nodeCovers cfg dW dH W H node a b = coveredBy W H (gridPos dW dH W H node) size.x size.y a b := by
  unfold nodeCovers
  simp only [hsize]

theorem nodeInside_size {cfg : Config} {dW dH : Int} {W H : Nat} {node : DummyNode}
    (h : nodeInside cfg dW dH W H node = true) :
    ∃ size, calculateRasterNodeSize cfg node = .ok size := by
  unfold nodeInside at h
  split at h
  · exact ⟨_, by assumption⟩
  · exact absurd h (by simp)

/-- One node step keeps the heat map accounted for, whatever the other nodes contribute
(`L` from below, `U` from above), and its decrement only meets counts of at least 1. -/
theorem resolveOverlapNode_accounted {fa : FloatArith} {cfg : Config} {dW dH : Int}
    {st st1 : OverlapState} {node node1 : DummyNode} (L U : Nat → Nat → Nat)
    (hU : ∀ a b, U a b + 1 < cellModulus)
    (hinv : ∀ a b,
      L a b + (if nodeInside cfg dW dH st.heatMap.columns st.heatMap.rows node &&
          nodeCovers cfg dW dH st.heatMap.columns st.heatMap.rows node a b then 1 else 0) ≤
        st.heatMap.cells a b ∧
      st.heatMap.cells a b ≤ U a b +
        (if nodeCovers cfg dW dH st.heatMap.columns st.heatMap.rows node a b then 1 else 0))
    (h : resolveOverlapNode fa cfg dW dH st node = .ok (node1, st1)) :
    st1.heatMap.columns = st.heatMap.columns ∧ st1.heatMap.rows = st.heatMap.rows ∧
      ∀ a b,
        L a b + (if nodeInside cfg dW dH st.heatMap.columns st.heatMap.rows node1 &&
            nodeCovers cfg dW dH st.heatMap.columns st.heatMap.rows node1 a b then 1 else 0) ≤
          st1.heatMap.cells a b ∧
        st1.heatMap.cells a b ≤ U a b +
          (if nodeCovers cfg dW dH st.heatMap.columns st.heatMap.rows node1 a b then 1 else 0) := by
  rcases resolveOverlapNode_cases h with ⟨h1, h2, _⟩ | ⟨size, hsize, hin, hsz, hhm⟩
  · subst h1; subst h2
    exact ⟨rfl, rfl, hinv⟩
  · have hsize1 : calculateRasterNodeSize cfg node1 = .ok size := by
      rw [calculateRasterNodeSize_congr cfg hsz, hsize]
    refine ⟨by rw [hhm]; rfl, by rw [hhm]; rfl, ?_⟩
    intro a b
    obtain ⟨hlo, hhi⟩ := hinv a b
    have hUab := hU a b
    rw [cellModulus_eq] at hUab
    rw [hin, nodeCovers_of_size hsize] at hlo
    rw [nodeCovers_of_size hsize] at hhi
    rw [nodeCovers_of_size hsize1, hhm]
    simp only [Grid.bump, cellModulus_cast, Bool.true_and] at hlo ⊢
    generalize coveredBy st.heatMap.columns st.heatMap.rows
      (gridPos dW dH st.heatMap.columns st.heatMap.rows node) size.x size.y a b = c0 at hlo hhi ⊢
    generalize coveredBy st.heatMap.columns st.heatMap.rows
      (gridPos dW dH st.heatMap.columns st.heatMap.rows node1) size.x size.y a b = c1
    generalize nodeInside cfg dW dH st.heatMap.columns st.heatMap.rows node1 = i1
    cases c0 <;> cases c1 <;> cases i1 <;> simp at hlo hhi ⊢ <;> omega

theorem coverCount_le_length (cfg : Config) (dW dH : Int) (W H : Nat) (nodes : List DummyNode)
    (a b : Nat) : coverCount cfg dW dH W H nodes a b ≤ nodes.length := by
  unfold coverCount
  induction nodes with
  | nil => simp
  | cons n rest ih =>
    simp only [List.map_cons, List.sum_cons, List.length_cons]
    split <;> omega

theorem insideCount_le_coverCount (cfg : Config) (dW dH : Int) (W H : Nat)
    (nodes : List DummyNode) (a b : Nat) :
    insideCount cfg dW dH W H nodes a b ≤ coverCount cfg dW dH W H nodes a b := by
  unfold insideCount coverCount
  induction nodes with
  | nil => simp
  | cons n rest ih =>
    simp only [List.map_cons, List.sum_cons]
    have hn : (if (nodeInside cfg dW dH W H n && nodeCovers cfg dW dH W H n a b) = true then 1 else 0)
        ≤ (if nodeCovers cfg dW dH W H n a b = true then 1 else 0) := by
      cases nodeInside cfg dW dH W H n <;> cases nodeCovers cfg dW dH W H n a b <;> simp
    omega

theorem insideCount_middle (cfg : Config) (dW dH : Int) (W H : Nat) (pre rest : List DummyNode)
    (n : DummyNode) (a b : Nat) :
    insideCount cfg dW dH W H (pre ++ n :: rest) a b =
      insideCount cfg dW dH W H (pre ++ rest) a b +
        (if nodeInside cfg dW dH W H n && nodeCovers cfg dW dH W H n a b then 1 else 0) := by
  unfold insideCount
  simp only [List.map_append, List.sum_append, List.map_cons, List.sum_cons]
  omega

theorem coverCount_middle (cfg : Config) (dW dH : Int) (W H : Nat) (pre rest : List DummyNode)
    (n : DummyNode) (a b : Nat) :
    coverCount cfg dW dH W H (pre ++ n :: rest) a b =
      coverCount cfg dW dH W H (pre ++ rest) a b +
        (if nodeCovers cfg dW dH W H n a b then 1 else 0) := by
  unfold coverCount
  simp only [List.map_append, List.sum_append, List.map_cons, List.sum_cons]
  omega

theorem resolveOverlapPass_accounted {fa : FloatArith} {cfg : Config} {dW dH : Int} (W H : Nat) :
    ∀ (mid pre suf : List DummyNode) (st st1 : OverlapState) (mid1 : List DummyNode),
      st.heatMap.columns = W → st.heatMap.rows = H →
      (pre ++ (mid ++ suf)).length < cellModulus →
      (∀ a b, insideCount cfg dW dH W H (pre ++ (mid ++ suf)) a b ≤ st.heatMap.cells a b ∧
        st.heatMap.cells a b ≤ coverCount cfg dW dH W H (pre ++ (mid ++ suf)) a b) →
      resolveOverlapPass fa cfg dW dH mid st = .ok (mid1, st1) →
      st1.heatMap.columns = W ∧ st1.heatMap.rows = H ∧ mid1.length = mid.length ∧
        ∀ a b, insideCount cfg dW dH W H (pre ++ (mid1 ++ suf)) a b ≤ st1.heatMap.cells a b ∧
          st1.heatMap.cells a b ≤ coverCount cfg dW dH W H (pre ++ (mid1 ++ suf)) a b := by
  intro mid
  induction mid with
  | nil =>
    intro pre suf st st1 mid1 hc hr _ hinv h
    simp only [resolveOverlapPass] at h
    injection h with h; injection h with h1 h2
    subst h1; subst h2
    exact ⟨hc, hr, rfl, hinv⟩
  | cons n rest ih =>
    intro pre suf st st1 mid1 hc hr hlen hinv h
    simp only [resolveOverlapPass] at h
    split at h
    · exact absurd h (by simp)
    · rename_i n1 st2 hnode
      split at h
      · exact absurd h (by simp)
      · rename_i rest1 st3 hrest
        injection h with h; injection h with h3 h4
        subst h3; subst h4
        have hlen1 : (pre ++ (rest ++ suf)).length + 1 < cellModulus := by
          simp only [List.length_append, List.length_cons] at hlen ⊢; omega
        have hstep := resolveOverlapNode_accounted
          (insideCount cfg dW dH W H (pre ++ (rest ++ suf)))
          (coverCount cfg dW dH W H (pre ++ (rest ++ suf)))
          (fun a b => lt_of_le_of_lt
            (Nat.add_le_add_right (coverCount_le_length cfg dW dH W H _ a b) 1) hlen1)
          (by
            intro a b
            have := hinv a b
            rw [List.cons_append, insideCount_middle, coverCount_middle] at this
            rw [hc, hr]
            exact this)
          hnode
        rw [hc, hr] at hstep
        obtain ⟨hc2, hr2, hinv2⟩ := hstep
        have hih := ih (pre ++ [n1]) suf st2 st3 rest1 hc2 hr2
          (by simp only [List.length_append, List.length_cons, List.length_nil] at hlen ⊢; omega)
          (by
            intro a b
            have := hinv2 a b
            rw [List.append_assoc, List.singleton_append, insideCount_middle, coverCount_middle]
            exact this)
          hrest
        obtain ⟨hc3, hr3, hl3, hinv3⟩ := hih
        refine ⟨hc3, hr3, by simp [hl3], ?_⟩
        intro a b
        have := hinv3 a b
        rw [List.append_assoc, List.singleton_append] at this
        exact this

theorem buildHeatMapLoop_accounted (cfg : Config) (aW aH : Int) (W H : Nat) :
    ∀ (nodes : List DummyNode) (hm g : Grid), hm.columns = W → hm.rows = H →
      (∀ a b, hm.cells a b + nodes.length < cellModulus) →
      buildHeatMapLoop cfg aW aH W H nodes hm = .ok g →
      g.columns = W ∧ g.rows = H ∧
        ∀ a b, g.cells a b = hm.cells a b + insideCount cfg aW aH W H nodes a b := by
  intro nodes
  induction nodes with
  | nil =>
    intro hm g hc hr _ h
    simp only [buildHeatMapLoop] at h
    injection h with h
    subst h
    exact ⟨hc, hr, fun a b => by simp [insideCount]⟩
  | cons node rest ih =>
    intro hm g hc hr hlen h
    simp only [List.length_cons] at hlen
    rcases calculateRasterNodeSize_cases cfg node with herr | ⟨sx, sy, hsize⟩
    · exfalso
      simp only [buildHeatMapLoop, buildHeatMapNode, herr] at h
      exact absurd h (by simp)
    · have hnode := buildHeatMapNode_eq cfg aW aH W H hm node sx sy hsize hc hr
      simp only [buildHeatMapLoop, hnode] at h
      by_cases hin : 0 ≤ node.position.x.tdiv aW + (W : Int).tdiv 2 ∧
          node.position.x.tdiv aW + (W : Int).tdiv 2 + sx ≤ W ∧
          0 ≤ node.position.y.tdiv aH + (H : Int).tdiv 2 ∧
          node.position.y.tdiv aH + (H : Int).tdiv 2 + sy ≤ H
      · rw [if_pos hin] at h
        have hI : nodeInside cfg aW aH W H node = true := by
          unfold nodeInside gridPos
          simp only [hsize, decide_eq_true_eq]
          exact hin
        have hC : ∀ a b, nodeCovers cfg aW aH W H node a b =
            coveredBy W H ⟨node.position.x.tdiv aW + (W : Int).tdiv 2,
              node.position.y.tdiv aH + (H : Int).tdiv 2⟩ sx sy a b := by
          intro a b
          unfold nodeCovers gridPos
          simp only [hsize]
        have hcell : ∀ a b, (hm.bump 1 (coveredBy W H
            ⟨node.position.x.tdiv aW + (W : Int).tdiv 2,
              node.position.y.tdiv aH + (H : Int).tdiv 2⟩ sx sy)).cells a b =
            hm.cells a b + (if nodeCovers cfg aW aH W H node a b then 1 else 0) := by
          intro a b
          rw [hC]
          show (if _ then _ else _) = _
          split
          · have := hlen a b
            rw [cellModulus_eq] at this
            have hmod : ((hm.cells a b : Int) + 1) % 4294967296 = ((hm.cells a b + 1 : Nat) : Int) := by
              push_cast; exact Int.emod_eq_of_lt (by omega) (by omega)
            rw [cellModulus_cast, hmod, Int.toNat_natCast]
          · rfl
        obtain ⟨hgc, hgr, hg⟩ := ih _ g (by rw [Grid.bump_columns]; exact hc)
          (by rw [Grid.bump_rows]; exact hr)
          (by
            intro a b
            have := hlen a b
            rw [hcell]
            split <;> omega)
          h
        refine ⟨hgc, hgr, fun a b => ?_⟩
        rw [hg, hcell]
        unfold insideCount
        simp only [List.map_cons, List.sum_cons, hI, Bool.true_and]
        omega
      · rw [if_neg hin] at h
        have hI : nodeInside cfg aW aH W H node = false := by
          unfold nodeInside gridPos
          simp only [hsize, decide_eq_false_iff_not]
          exact hin
        obtain ⟨hgc, hgr, hg⟩ := ih hm g hc hr
          (by intro a b; have := hlen a b; omega) h
        refine ⟨hgc, hgr, fun a b => ?_⟩
        rw [hg]
        unfold insideCount
        simp only [List.map_cons, List.sum_cons, hI, Bool.false_and]
        simp

theorem buildHeatMap_accounted {cfg : Config} {nodes : List DummyNode} {aW aH : Int}
    {maxNodeWidth maxNodeHeight : Nat} {heatMap : Grid} (haW : 0 < aW) (haH : 0 < aH)
    (hlen : nodes.length < cellModulus)
    (h : buildHeatMap cfg nodes aW aH maxNodeWidth maxNodeHeight = .ok heatMap) :
    ∀ a b, insideCount cfg aW aH heatMap.columns heatMap.rows nodes a b ≤ heatMap.cells a b ∧
      heatMap.cells a b ≤ coverCount cfg aW aH heatMap.columns heatMap.rows nodes a b := by
  have hW := heatMapExtent_nonneg (Int.ofNat_nonneg maxNodeWidth) nodes.length haW
  have hH := heatMapExtent_nonneg (Int.ofNat_nonneg maxNodeHeight) nodes.length haH
  obtain ⟨W, hWe⟩ := Int.eq_ofNat_of_zero_le hW
  obtain ⟨H, hHe⟩ := Int.eq_ofNat_of_zero_le hH
  unfold buildHeatMap at h
  rw [if_neg (by omega)] at h
  simp only [hWe, hHe] at h
  obtain ⟨hc, hr, hg⟩ := buildHeatMapLoop_accounted cfg aW aH W H nodes (Grid.create W H) heatMap
    (by simp [Grid.create]) (by simp [Grid.create])
    (by intro a b; simp only [Grid.create]; omega) h
  intro a b
  rw [hc, hr, hg]
  simp only [Grid.create, zero_add]
  exact ⟨le_refl _, insideCount_le_coverCount cfg aW aH W H nodes a b⟩

theorem resolveOverlapLoop_accounted {fa : FloatArith} {cfg : Config} {dW dH : Int} (W H : Nat) :
    ∀ (k : Nat) (nodes : List DummyNode) (st : OverlapState) (p : Nat)
      (nodesK : List DummyNode) (stK : OverlapState) (pK : Nat),
      st.heatMap.columns = W → st.heatMap.rows = H → nodes.length < cellModulus →
      (∀ a b, insideCount cfg dW dH W H nodes a b ≤ st.heatMap.cells a b ∧
        st.heatMap.cells a b ≤ coverCount cfg dW dH W H nodes a b) →
      resolveOverlapLoop fa cfg dW dH k nodes st p = .ok (nodesK, stK, pK) →
      stK.heatMap.columns = W ∧ stK.heatMap.rows = H ∧ nodesK.length < cellModulus ∧
        ∀ a b, insideCount cfg dW dH W H nodesK a b ≤ stK.heatMap.cells a b ∧
          stK.heatMap.cells a b ≤ coverCount cfg dW dH W H nodesK a b := by
  intro k
  induction k with
  | zero =>
    intro nodes st p nodesK stK pK hc hr hlen hinv h
    simp only [resolveOverlapLoop] at h
    injection h with h; injection h with h1 h2; injection h2 with h2 h3
    subst h1; subst h2
    exact ⟨hc, hr, hlen, hinv⟩
  | succ k ih =>
    intro nodes st p nodesK stK pK hc hr hlen hinv h
    simp only [resolveOverlapLoop] at h
    split at h
    · split at h
      · exact absurd h (by simp)
      · rename_i nodes1 st1 hpass
        have hp := resolveOverlapPass_accounted W H nodes [] [] ⟨st.heatMap, false⟩ st1 nodes1
          hc hr (by simpa using hlen) (by simpa using hinv) hpass
        obtain ⟨hc1, hr1, hl1, hinv1⟩ := hp
        exact ih nodes1 st1 (p + 1) nodesK stK pK hc1 hr1 (by omega) (by simpa using hinv1) h
    · injection h with h; injection h with h1 h2; injection h2 with h2 h3
      subst h1; subst h2
      exact ⟨hc, hr, hlen, hinv⟩

/-- C11: heat map counts never go negative during overlap resolution. Let `heatMap` be the
grid that `buildHeatMap` returns for a node list (shorter than the range of the `unsigned int`
counts) and positive pitches, and let `resolveOverlap` run on that list and grid with the same
pitches, for any float arithmetic (so whatever the gradient values are). Take any point where
the loop body is about to treat a node: `k < 15` passes are over and the overlap flag asks for
another one, the nodes `done` before `node` in the list have been treated in the current pass,
and `node` passes the two range checks, so that `modifyHeatmapArea(-1)` is called for it. Then
every cell `(nodePos.x + i, nodePos.y + j)` of the footprint that the call decrements is a
cell of the grid and holds a count of at least 1. -/
theorem resolveOverlap_decrements_positive (fa : FloatArith) (cfg : Config)
    (nodes : List DummyNode) (divisorWidth divisorHeight : Int)
    (maxNodeWidth maxNodeHeight : Nat) (heatMap : Grid)
    (hdW : 0 < divisorWidth) (hdH : 0 < divisorHeight) (hlen : nodes.length < cellModulus)
    (hbuild : buildHeatMap cfg nodes divisorWidth divisorHeight maxNodeWidth maxNodeHeight =
      .ok heatMap) :
    ∀ (k : Nat) (nodesK : List DummyNode) (stK : OverlapState) (passes : Nat),
      k < maxIterations →
      resolveOverlapLoop fa cfg divisorWidth divisorHeight k nodes ⟨heatMap, true⟩ 0 =
        .ok (nodesK, stK, passes) →
      stK.overlap = true →
      ∀ (done rest done1 : List DummyNode) (node : DummyNode) (st : OverlapState),
        nodesK = done ++ node :: rest →
        resolveOverlapPass fa cfg divisorWidth divisorHeight done ⟨stK.heatMap, false⟩ =
          .ok (done1, st) →
        ∀ nodeSize : Vec2i, calculateRasterNodeSize cfg node = .ok nodeSize →
          ¬ (node.position.x.tdiv divisorWidth + (st.heatMap.columns : Int).tdiv 2 + nodeSize.x >
              st.heatMap.columns ∨
            node.position.x.tdiv divisorWidth + (st.heatMap.columns : Int).tdiv 2 < 0) →
          ¬ (node.position.y.tdiv divisorHeight + (st.heatMap.rows : Int).tdiv 2 + nodeSize.y >
              st.heatMap.rows ∨
            node.position.y.tdiv divisorHeight + (st.heatMap.rows : Int).tdiv 2 < 0) →
          ∀ i j : Nat, (i : Int) < nodeSize.x → (j : Int) < nodeSize.y →
            ∃ value,
              st.heatMap.getValue
                (node.position.x.tdiv divisorWidth + (st.heatMap.columns : Int).tdiv 2 + i)
                (node.position.y.tdiv divisorHeight + (st.heatMap.rows : Int).tdiv 2 + j) =
                .ok value ∧ 1 ≤ value := by
  intro k nodesK stK passes _ hloop _ done rest done1 node st hsplit hpass nodeSize hsize hx hy
    i j hi hj
  have h0 := buildHeatMap_accounted hdW hdH hlen hbuild
  obtain ⟨hcK, hrK, hlenK, hinvK⟩ := resolveOverlapLoop_accounted heatMap.columns heatMap.rows
    k nodes ⟨heatMap, true⟩ 0 nodesK stK passes rfl rfl hlen h0 hloop
  subst hsplit
  obtain ⟨hc, hr, _, hinv⟩ := resolveOverlapPass_accounted heatMap.columns heatMap.rows
    done [] (node :: rest) ⟨stK.heatMap, false⟩ st done1 hcK hrK (by simpa using hlenK)
    (by simpa using hinvK) hpass
  rw [hc] at hx
  rw [hr] at hy
  rw [hc, hr]
  generalize heatMap.columns = W at *
  generalize heatMap.rows = H at *
  have hrange : st.heatMap.inRange (node.position.x.tdiv divisorWidth + (W : Int).tdiv 2 + i)
      (node.position.y.tdiv divisorHeight + (H : Int).tdiv 2 + j) := by
    unfold Grid.inRange
    rw [hc, hr]
    omega
  refine ⟨_, if_pos hrange, ?_⟩
  have hI : nodeInside cfg divisorWidth divisorHeight W H node = true := by
    unfold nodeInside gridPos
    simp only [hsize, decide_eq_true_eq]
    omega
  have hC : nodeCovers cfg divisorWidth divisorHeight W H node
      (node.position.x.tdiv divisorWidth + (W : Int).tdiv 2 + i).toNat
      (node.position.y.tdiv divisorHeight + (H : Int).tdiv 2 + j).toNat = true := by
    unfold nodeCovers gridPos coveredBy
    simp only [hsize, decide_eq_true_eq]
    omega
  have := (hinv (node.position.x.tdiv divisorWidth + (W : Int).tdiv 2 + i).toNat
    (node.position.y.tdiv divisorHeight + (H : Int).tdiv 2 + j).toNat).1
  rw [List.nil_append, insideCount_middle, hI, hC] at this
  simp only [Bool.and_self, if_true] at this
  omega

theorem resolveOverlap_decrements_positive_witness :
    (0 : Int) < 12 ∧
      ([⟨⟨0, 0⟩, ⟨10, 10⟩⟩, ⟨⟨0, 0⟩, ⟨10, 10⟩⟩] : List DummyNode).length < cellModulus ∧
      buildHeatMap ⟨10, 10, 2⟩ [⟨⟨0, 0⟩, ⟨10, 10⟩⟩, ⟨⟨0, 0⟩, ⟨10, 10⟩⟩] 12 12
        ((10 : Nat) : Int) ((10 : Nat) : Int) = .ok scenarioHeatMap ∧
      0 < maxIterations ∧
      resolveOverlapLoop intArith ⟨10, 10, 2⟩ 12 12 0 [⟨⟨0, 0⟩, ⟨10, 10⟩⟩, ⟨⟨0, 0⟩, ⟨10, 10⟩⟩]
        ⟨scenarioHeatMap, true⟩ 0 =
        .ok ([⟨⟨0, 0⟩, ⟨10, 10⟩⟩, ⟨⟨0, 0⟩, ⟨10, 10⟩⟩], ⟨scenarioHeatMap, true⟩, 0) ∧
      resolveOverlapPass intArith ⟨10, 10, 2⟩ 12 12 [] ⟨scenarioHeatMap, false⟩ =
        .ok ([], ⟨scenarioHeatMap, false⟩) ∧
      calculateRasterNodeSize ⟨10, 10, 2⟩ ⟨⟨0, 0⟩, ⟨10, 10⟩⟩ = .ok ⟨1, 1⟩ ∧
      ∃ value, scenarioHeatMap.getValue
        (Int.tdiv 0 12 + ((scenarioHeatMap.columns : Nat) : Int).tdiv 2 + ((0 : Nat) : Int))
        (Int.tdiv 0 12 + ((scenarioHeatMap.rows : Nat) : Int).tdiv 2 + ((0 : Nat) : Int)) =
          .ok value ∧ 1 ≤ value :=
  ⟨by decide, by simp [cellModulus], scenario_buildHeatMap, by decide, rfl, rfl, scenario_size,
    resolveOverlap_decrements_positive intArith ⟨10, 10, 2⟩
      [⟨⟨0, 0⟩, ⟨10, 10⟩⟩, ⟨⟨0, 0⟩, ⟨10, 10⟩⟩] 12 12 10 10 scenarioHeatMap (by decide) (by decide)
      (by simp [cellModulus]) scenario_buildHeatMap 0 [⟨⟨0, 0⟩, ⟨10, 10⟩⟩, ⟨⟨0, 0⟩, ⟨10, 10⟩⟩]
      ⟨scenarioHeatMap, true⟩ 0 (by decide) rfl rfl [] [⟨⟨0, 0⟩, ⟨10, 10⟩⟩] []
      ⟨⟨0, 0⟩, ⟨10, 10⟩⟩ ⟨scenarioHeatMap, false⟩ rfl rfl ⟨1, 1⟩ scenario_size (by decide)
      (by decide) 0 0 (by decide) (by decide)⟩

/-! ## The machine arithmetic of alignment and raster size -/

theorem wrapInt32_of_fits {z : Int} (h1 : -2147483648 ≤ z) (h2 : z ≤ 2147483647) :
    wrapInt32 z = z := by
  unfold wrapInt32
  omega

theorem fits_of_mul_fits {t d : Int} (hd : 0 < d)
    (h : -2147483648 ≤ t * d ∧ t * d ≤ 2147483647) :
    -2147483648 ≤ t ∧ t ≤ 2147483647 := by
  rcases le_or_lt 0 t with ht | ht
  · have : t * 1 ≤ t * d := mul_le_mul_of_nonneg_left (by omega) ht
    omega
  · have : t * d ≤ t * 1 := mul_le_mul_of_nonpos_left (by omega) ht.le
    omega

theorem alignAxis32_eq_alignAxis {d p : Int} (hd : 0 < d) (hfit : alignFits d p) :
    alignAxis32 d p = alignAxis d p := by
  unfold alignFits alignAxis at hfit
  unfold alignAxis32 alignAxis
  by_cases h0 : p.tmod d ≠ 0
  · simp only [if_pos h0] at hfit ⊢
    by_cases h1 : |p.tmod d| > d.tdiv 2
    · simp only [if_pos h1] at hfit ⊢
      by_cases h2 : p.tdiv d ≠ 0
      · simp only [if_pos h2] at hfit ⊢
        have ht := fits_of_mul_fits hd hfit
        rw [wrapInt32_of_fits ht.1 ht.2, wrapInt32_of_fits hfit.1 hfit.2]
      · simp only [if_neg h2] at hfit ⊢
        have ht := fits_of_mul_fits hd hfit
        rw [wrapInt32_of_fits ht.1 ht.2, wrapInt32_of_fits hfit.1 hfit.2]
    · simp only [if_neg h1] at hfit ⊢
      rw [wrapInt32_of_fits hfit.1 hfit.2]
  · simp only [if_neg h0]

theorem alignAxis32_of_dvd {d p : Int} (h : d ∣ p) : alignAxis32 d p = p := by
  unfold alignAxis32
  rw [if_neg (by rw [not_not]; exact Int.tmod_eq_zero_of_dvd h)]

theorem alignFits_of_bound {d p : Int} (hd : 0 < d) (h1 : -2147483648 + d / 2 ≤ p)
    (h2 : p ≤ 2147483647 - d / 2) : alignFits d p := by
  have hc := alignAxis_close hd p
  have := abs_le.mp (show |alignAxis d p - p| ≤ d / 2 by omega)
  unfold alignFits
  omega

theorem alignOnRaster32_ok {cfg : Config} (hpitch : 0 < rasterPosDivisor32 cfg) (P : Vec2i) :
    alignOnRaster32 cfg P =
      .ok ⟨alignAxis32 (rasterPosDivisor32 cfg) P.x, alignAxis32 (rasterPosDivisor32 cfg) P.y⟩ := by
  unfold alignOnRaster32
  rw [if_neg (by omega), if_neg (by omega)]

/-- C3, the claim fails: with pitch 12 the position `(2147483647, -2147483647)` is aligned to
`(-2147483644, 2147483644)`, because `178956971 * 12` is not an `int` and wraps around, and
aligning that result again gives another position, `(-2147483640, 2147483640)`. -/
theorem alignOnRaster32_idempotent_counterexample :
    rasterPosDivisor32 ⟨10, 10, 2⟩ = 12 ∧
      alignOnRaster32 ⟨10, 10, 2⟩ ⟨2147483647, -2147483647⟩ = .ok ⟨-2147483644, 2147483644⟩ ∧
      alignOnRaster32 ⟨10, 10, 2⟩ ⟨-2147483644, 2147483644⟩ = .ok ⟨-2147483640, 2147483640⟩ := by
  decide

/-- C3 as amended: `alignOnRaster`, computed in 32-bit `int` as in the source, is idempotent
wherever its product `t * rasterPosDivisor` does not overflow. For every positive `int`
pitch and every position for which the multiple of the pitch computed on each axis is an
`int` (so for every coordinate at least half a pitch inside the `int` range) the call
returns, and aligning its result again returns the same position. -/
theorem alignOnRaster32_idempotent (cfg : Config) (P : Vec2i)
    (hpitch : 0 < rasterPosDivisor32 cfg)
    (hx : alignFits (rasterPosDivisor32 cfg) P.x) (hy : alignFits (rasterPosDivisor32 cfg) P.y) :
    ∃ Q, alignOnRaster32 cfg P = .ok Q ∧ alignOnRaster32 cfg Q = .ok Q := by
  refine ⟨_, alignOnRaster32_ok hpitch P, ?_⟩
  rw [alignOnRaster32_ok hpitch, alignAxis32_eq_alignAxis hpitch hx,
    alignAxis32_eq_alignAxis hpitch hy]
  simp only [alignAxis32_of_dvd (alignAxis_dvd _)]

theorem alignOnRaster32_idempotent_witness :
    0 < rasterPosDivisor32 ⟨10, 10, 2⟩ ∧
      alignFits (rasterPosDivisor32 ⟨10, 10, 2⟩) 2147483645 ∧
      alignFits (rasterPosDivisor32 ⟨10, 10, 2⟩) (-19) ∧
      ∃ Q, alignOnRaster32 ⟨10, 10, 2⟩ ⟨2147483645, -19⟩ = .ok Q ∧
        alignOnRaster32 ⟨10, 10, 2⟩ Q = .ok Q :=
  ⟨by decide, by decide, by decide,
    alignOnRaster32_idempotent ⟨10, 10, 2⟩ ⟨2147483645, -19⟩ (by decide) (by decide) (by decide)⟩

/-- C4, the claim fails: with pitch 12 the coordinate 2147483647 is sent to -2147483644,
which is not a multiple of 12 and is not within half a pitch of the coordinate: the nearest
multiple 2147483652 is not an `int` and the product of line 99 wraps around. -/
theorem alignOnRaster32_nearest_counterexample :
    rasterPosDivisor32 ⟨10, 10, 2⟩ = 12 ∧
      alignOnRaster32 ⟨10, 10, 2⟩ ⟨2147483647, 0⟩ = .ok ⟨-2147483644, 0⟩ ∧
      ¬ ((12 : Int) ∣ -2147483644) ∧ ¬ (2 * |(-2147483644 : Int) - 2147483647| ≤ 12) := by
  decide

/-- C4 as amended: `alignOnRaster`, computed in 32-bit `int` as in the source, rounds each
axis to a nearest multiple of the pitch wherever its product `t * rasterPosDivisor` does not
overflow. For every positive `int` pitch `d` and every position (coordinates of either sign)
for which the multiple of the pitch computed on each axis is an `int`, the call returns, each
result coordinate is a multiple of `d`, and it differs from the input coordinate by at most
half a pitch: `2 * |r - x| ≤ d`. -/
theorem alignOnRaster32_nearest (cfg : Config) (P : Vec2i)
    (hpitch : 0 < rasterPosDivisor32 cfg)
    (hx : alignFits (rasterPosDivisor32 cfg) P.x) (hy : alignFits (rasterPosDivisor32 cfg) P.y) :
    ∃ Q, alignOnRaster32 cfg P = .ok Q ∧
      rasterPosDivisor32 cfg ∣ Q.x ∧ 2 * |Q.x - P.x| ≤ rasterPosDivisor32 cfg ∧
      rasterPosDivisor32 cfg ∣ Q.y ∧ 2 * |Q.y - P.y| ≤ rasterPosDivisor32 cfg := by
  refine ⟨_, alignOnRaster32_ok hpitch P, ?_⟩
  rw [alignAxis32_eq_alignAxis hpitch hx, alignAxis32_eq_alignAxis hpitch hy]
  exact ⟨alignAxis_dvd _, alignAxis_close hpitch _, alignAxis_dvd _, alignAxis_close hpitch _⟩

theorem alignOnRaster32_nearest_witness :
    0 < rasterPosDivisor32 ⟨10, 10, 2⟩ ∧
      alignFits (rasterPosDivisor32 ⟨10, 10, 2⟩) 7 ∧
      alignFits (rasterPosDivisor32 ⟨10, 10, 2⟩) (-2147483646) ∧
      ∃ Q, alignOnRaster32 ⟨10, 10, 2⟩ ⟨7, -2147483646⟩ = .ok Q ∧
        rasterPosDivisor32 ⟨10, 10, 2⟩ ∣ Q.x ∧
        2 * |Q.x - 7| ≤ rasterPosDivisor32 ⟨10, 10, 2⟩ ∧
        rasterPosDivisor32 ⟨10, 10, 2⟩ ∣ Q.y ∧
        2 * |Q.y - (-2147483646)| ≤ rasterPosDivisor32 ⟨10, 10, 2⟩ :=
  ⟨by decide, by decide, by decide,
    alignOnRaster32_nearest ⟨10, 10, 2⟩ ⟨7, -2147483646⟩ (by decide) (by decide) (by decide)⟩

/-- C1, the code at the failing input: two nodes of size `(0, 0)` at `(0, 0)` and `(12, 0)`,
pitch 12. The total mass is zero, line 54 divides by it and the conversion of the quotient
leaves the centre of mass at `-2147483648` on both axes; the outlier pull then hands a `y`
of `-2147483648` (or one above it) to `alignNodeOnRaster` at line 65. There the product
`-178956971 * 12` of line 119 is not an `int`: it wraps around to 2147483644, which is not a
multiple of 12, whatever the `x` of the node is. -/
theorem alignOnRaster32_misaligns_near_int_min :
    rasterPosDivisor32 ⟨10, 10, 2⟩ = 12 ∧
      (∀ x : Int, ∃ Q, alignOnRaster32 ⟨10, 10, 2⟩ ⟨x, -2147483648⟩ = .ok Q ∧
        Q.y = 2147483644 ∧ ¬ (rasterPosDivisor32 ⟨10, 10, 2⟩ ∣ Q.y)) ∧
      ∀ x : Int, ∃ Q, alignOnRaster32 ⟨10, 10, 2⟩ ⟨x, -2147483647⟩ = .ok Q ∧
        Q.y = 2147483644 ∧ ¬ (rasterPosDivisor32 ⟨10, 10, 2⟩ ∣ Q.y) := by
  have hd : rasterPosDivisor32 ⟨10, 10, 2⟩ = 12 := by decide
  have h1 : alignAxis32 12 (-2147483648) = 2147483644 := by decide
  have h2 : alignAxis32 12 (-2147483647) = 2147483644 := by decide
  have h3 : ¬ ((12 : Int) ∣ 2147483644) := by decide
  refine ⟨hd, fun x => ?_, fun x => ?_⟩
  · refine ⟨_, alignOnRaster32_ok (by decide) _, ?_, ?_⟩
    · rw [hd]; exact h1
    · rw [hd]; show ¬ ((12 : Int) ∣ alignAxis32 12 (-2147483648)); rw [h1]; exact h3
  · refine ⟨_, alignOnRaster32_ok (by decide) _, ?_, ?_⟩
    · rw [hd]; exact h2
    · rw [hd]; show ¬ ((12 : Int) ∣ alignAxis32 12 (-2147483647)); rw [h2]; exact h3

theorem rasterAxisLoop32_eq_rasterAxisLoop {cell padding : Int}
    (hc : 0 ≤ cell) (hcb : cell ≤ 2147483649) (hp : 0 ≤ padding) (hpb : padding ≤ 2147483649) :
    ∀ (fuel : Nat) (size : Int) (count : Nat), size ≤ 2147483647 →
      rasterAxisLoop32 cell padding fuel size count = rasterAxisLoop cell padding fuel size count := by
  intro fuel
  induction fuel with
  | zero => intro size count _; rfl
  | succ fuel ih =>
    intro size count hs
    by_cases h0 : size > 0
    · have e1 : wrapInt32 (size - cell) = size - cell := wrapInt32_of_fits (by omega) (by omega)
      by_cases h1 : size - cell > 0
      · have e2 : wrapInt32 (size - cell - padding) = size - cell - padding :=
          wrapInt32_of_fits (by omega) (by omega)
        simp only [rasterAxisLoop32, rasterAxisLoop, if_pos h0, e1, if_pos h1, e2]
        exact ih _ _ (by omega)
      · simp only [rasterAxisLoop32, rasterAxisLoop, if_pos h0, e1, if_neg h1]
        exact ih _ _ (by omega)
    · simp only [rasterAxisLoop32, rasterAxisLoop, if_neg h0]

theorem rasterAxisLoop32_more_fuel (cell padding : Int) :
    ∀ (fuel extra : Nat) (size : Int) (count n : Nat),
      rasterAxisLoop32 cell padding fuel size count = some n →
      rasterAxisLoop32 cell padding (fuel + extra) size count = some n := by
  intro fuel
  induction fuel with
  | zero =>
    intro extra size count n h
    simp only [rasterAxisLoop32] at h
    split at h
    · exact absurd h (by simp)
    · rename_i h0
      cases extra with
      | zero => simp only [rasterAxisLoop32, if_neg h0]; exact h
      | succ e => simp only [Nat.zero_add, rasterAxisLoop32, if_neg h0]; exact h
  | succ fuel ih =>
    intro extra size count n h
    have e : fuel + 1 + extra = (fuel + extra) + 1 := by omega
    rw [e]
    simp only [rasterAxisLoop32] at h ⊢
    split at h
    · rename_i h0
      rw [if_pos h0]
      exact ih extra _ _ n h
    · rename_i h0
      rw [if_neg h0]
      exact h

theorem rasterAxis32_eq_rasterAxis (cell padding : Nat) (hpos : 0 < cell + padding)
    (hcb : cell ≤ 2147483649) (hpb : padding ≤ 2147483649) (size : Int)
    (hs : size ≤ 2147483647) :
    rasterAxis32 cell padding size = rasterAxis cell padding size := by
  obtain ⟨n, hn, _, _⟩ := rasterAxisLoop_spec cell padding hpos size.toNat size 0 le_rfl
  have h32 : rasterAxisLoop32 cell padding size.toNat size 0 = some (0 + n) := by
    rw [rasterAxisLoop32_eq_rasterAxisLoop (by omega) (by omega) (by omega) (by omega) _ _ _ hs]
    exact hn
  have hmore := rasterAxisLoop32_more_fuel cell padding size.toNat (2147483648 - size.toNat)
    size 0 _ h32
  have e : size.toNat + (2147483648 - size.toNat) = 2147483648 := by omega
  rw [e] at hmore
  unfold rasterAxis32 rasterAxis
  rw [hmore, hn]

theorem rasterAxisLoop32_stuck :
    ∀ (fuel count : Nat),
      rasterAxisLoop32 ((1 : Nat) : Int) ((4294967295 : Nat) : Int) fuel 5 count = none := by
  intro fuel
  induction fuel with
  | zero => intro count; rfl
  | succ fuel ih =>
    intro count
    have e1 : wrapInt32 (5 - ((1 : Nat) : Int)) = 4 := by decide
    have e2 : wrapInt32 (4 - ((4294967295 : Nat) : Int)) = 5 := by decide
    have h5 : (5 : Int) > 0 := by decide
    have h4 : (4 : Int) > 0 := by decide
    unfold rasterAxisLoop32
    rw [if_pos h5]
    simp only [e1, if_pos h4, e2]
    exact ih _

theorem rasterAxis32_of_none {cell padding : Nat} {size : Int}
    (h : rasterAxisLoop32 cell padding 2147483648 size 0 = none) :
    rasterAxis32 cell padding size = .error .diverges := by
  unfold rasterAxis32
  rw [h]

theorem calculateRasterNodeSize32_of_diverges {cfg : Config} {node : DummyNode} (sx : Int)
    (hx : rasterAxis32 cfg.cellWidth cfg.cellPadding node.size.x = .ok sx)
    (hy : rasterAxis32 cfg.cellHeight cfg.cellPadding node.size.y = .error .diverges) :
    calculateRasterNodeSize32 cfg node = .error .diverges := by
  unfold calculateRasterNodeSize32
  rw [hx, hy]

theorem calculateRasterNodeSize32_eq {cfg : Config} {node : DummyNode}
    (hw : 0 < cfg.cellWidth) (hh : 0 < cfg.cellHeight)
    (hwb : cfg.cellWidth ≤ 2147483649) (hhb : cfg.cellHeight ≤ 2147483649)
    (hpb : cfg.cellPadding ≤ 2147483649)
    (hxb : node.size.x ≤ 2147483647) (hyb : node.size.y ≤ 2147483647) :
    calculateRasterNodeSize32 cfg node = calculateRasterNodeSize cfg node := by
  unfold calculateRasterNodeSize32 calculateRasterNodeSize
  rw [rasterAxis32_eq_rasterAxis _ _ (by omega) hwb hpb _ hxb,
    rasterAxis32_eq_rasterAxis _ _ (by omega) hhb hpb _ hyb]

/-- C6, the claim fails for cell extents and paddings near `2 ^ 32`, where the `unsigned int`
subtractions of lines 446-449 wrap around: with `cellWidth = 4000000000` a size of 5 gets 8
cells on the x axis (the ceiling form gives 1), and so does a size of 1 with
`cellWidth = 2147483650` get 2; with `cellHeight = 1` and `cellPadding = 4294967295` the
loop of the y axis returns to a remaining size of 5 after every iteration and never
exits. -/
theorem calculateRasterNodeSize32_wrap_counterexample :
    calculateRasterNodeSize32 ⟨4000000000, 10, 0⟩ ⟨⟨0, 0⟩, ⟨5, 0⟩⟩ = .ok ⟨8, 0⟩ ∧
      ⌈((5 : Int) : ℚ) / (((4000000000 : Nat) : ℚ) + ((0 : Nat) : ℚ))⌉ = 1 ∧
      calculateRasterNodeSize32 ⟨2147483650, 10, 0⟩ ⟨⟨0, 0⟩, ⟨1, 0⟩⟩ = .ok ⟨2, 0⟩ ∧
      (∀ fuel : Nat, rasterAxisLoop32 ((1 : Nat) : Int) ((4294967295 : Nat) : Int) fuel 5 0 = none) ∧
      calculateRasterNodeSize32 ⟨10, 1, 4294967295⟩ ⟨⟨0, 0⟩, ⟨0, 5⟩⟩ = .error .diverges := by
  refine ⟨by decide, ?_, by decide, fun fuel => rasterAxisLoop32_stuck fuel 0, ?_⟩
  · rw [Int.ceil_eq_iff]
    norm_num
  · exact calculateRasterNodeSize32_of_diverges 0 (by decide)
      (rasterAxis32_of_none (rasterAxisLoop32_stuck 2147483648 0))

/-- C6 as amended: `calculateRasterNodeSize`, computed in the `int` and `unsigned int`
arithmetic of the source, terminates and equals the plain ceiling form on each axis wherever
no subtraction wraps around. For every node size `0 ≤ s ≤ 2147483647` (an `int`), cell
extents `0 < w ≤ 2 ^ 31 + 1` and padding `0 ≤ p ≤ 2 ^ 31 + 1` the loops exit and the cell
count of an axis is `⌈s / (w + p)⌉`. -/
theorem calculateRasterNodeSize32_eq_ceil (cfg : Config) (node : DummyNode)
    (hw : 0 < cfg.cellWidth) (hh : 0 < cfg.cellHeight)
    (hwb : cfg.cellWidth ≤ 2147483649) (hhb : cfg.cellHeight ≤ 2147483649)
    (hpb : cfg.cellPadding ≤ 2147483649)
    (hx : 0 ≤ node.size.x) (hy : 0 ≤ node.size.y)
    (hxb : node.size.x ≤ 2147483647) (hyb : node.size.y ≤ 2147483647) :
    calculateRasterNodeSize32 cfg node =
      .ok ⟨⌈(node.size.x : ℚ) / ((cfg.cellWidth : ℚ) + (cfg.cellPadding : ℚ))⌉,
        ⌈(node.size.y : ℚ) / ((cfg.cellHeight : ℚ) + (cfg.cellPadding : ℚ))⌉⟩ := by
  rw [calculateRasterNodeSize32_eq hw hh hwb hhb hpb hxb hyb]
  unfold calculateRasterNodeSize
  rw [rasterAxis_eq_ceil cfg.cellWidth cfg.cellPadding (by omega) _ hx,
    rasterAxis_eq_ceil cfg.cellHeight cfg.cellPadding (by omega) _ hy]

theorem calculateRasterNodeSize32_eq_ceil_witness :
    calculateRasterNodeSize32 ⟨10, 10, 2⟩ ⟨⟨0, 0⟩, ⟨25, 0⟩⟩ =
        .ok ⟨⌈((25 : Int) : ℚ) / (((10 : Nat) : ℚ) + ((2 : Nat) : ℚ))⌉,
          ⌈((0 : Int) : ℚ) / (((10 : Nat) : ℚ) + ((2 : Nat) : ℚ))⌉⟩ ∧
      calculateRasterNodeSize32 ⟨10, 10, 2⟩ ⟨⟨0, 0⟩, ⟨25, 0⟩⟩ = .ok ⟨3, 0⟩ :=
  ⟨calculateRasterNodeSize32_eq_ceil ⟨10, 10, 2⟩ ⟨⟨0, 0⟩, ⟨25, 0⟩⟩ (by decide) (by decide)
    (by decide) (by decide) (by decide) (by decide) (by decide) (by decide) (by decide),
    by decide⟩

/-- C7, the claim fails. For `w = 10`, `p = 2` a size of 11 gets 1 cell from the code, while
the padding-adjusted closed form asks for 2 (one cell covers only 10). And for a cell extent
near `2 ^ 32` the `unsigned int` subtraction of line 446 wraps around: with `w = 4000000000`,
`p = 0` a size of 5 gets 8 cells, while 1 cell covers it. -/
theorem calculateRasterNodeSize32_padding_counterexample :
    calculateRasterNodeSize32 ⟨10, 10, 2⟩ ⟨⟨0, 0⟩, ⟨11, 11⟩⟩ = .ok ⟨1, 1⟩ ∧
      paddingAdjustedCells 11 10 2 = 2 ∧ ¬ ((1 : Int) * 10 + (1 - 1) * 2 ≥ 11) ∧
      calculateRasterNodeSize32 ⟨4000000000, 4000000000, 0⟩ ⟨⟨0, 0⟩, ⟨5, 5⟩⟩ = .ok ⟨8, 8⟩ ∧
      (1 : Int) * 4000000000 + (1 - 1) * 0 ≥ 5 :=
  ⟨by decide, paddingAdjustedCells_example, by decide, by decide, by decide⟩

/-- C7 as amended: on all non-negative sizes `calculateRasterNodeSize`, computed in the `int`
and `unsigned int` arithmetic of the source, agrees with the closed form in which every cell
carries its padding, wherever no subtraction wraps around. For every size
`0 ≤ s ≤ 2147483647` (an `int`), cell extent `0 < w ≤ 2 ^ 31 + 1` and padding
`0 ≤ p ≤ 2 ^ 31 + 1` the cell count on an axis is the least `n ≥ 0` with `n * (w + p) ≥ s`;
it is the padding-adjusted count of the specification or one less. -/
theorem rasterAxis32_least_cover (s : Int) (w p : Nat) (hs : 0 ≤ s) (hsb : s ≤ 2147483647)
    (hw : 0 < w) (hwb : w ≤ 2147483649) (hpb : p ≤ 2147483649) :
    ∃ n : Nat, rasterAxis32 w p s = .ok (n : Int) ∧
      s ≤ (n : Int) * ((w : Int) + p) ∧
      (∀ m : Nat, s ≤ (m : Int) * ((w : Int) + p) → n ≤ m) ∧
      (n : Int) ≤ paddingAdjustedCells s w p ∧ paddingAdjustedCells s w p ≤ (n : Int) + 1 := by
  rw [rasterAxis32_eq_rasterAxis w p (by omega) hwb hpb s hsb]
  exact rasterAxis_cover s w p hs hw

theorem rasterAxis32_least_cover_witness :
    ∃ n : Nat, rasterAxis32 10 2 11 = .ok (n : Int) ∧
      (11 : Int) ≤ (n : Int) * (((10 : Nat) : Int) + (2 : Nat)) ∧
      (∀ m : Nat, (11 : Int) ≤ (m : Int) * (((10 : Nat) : Int) + (2 : Nat)) → n ≤ m) ∧
      (n : Int) ≤ paddingAdjustedCells 11 10 2 ∧ paddingAdjustedCells 11 10 2 ≤ (n : Int) + 1 :=
  rasterAxis32_least_cover 11 10 2 (by decide) (by decide) (by decide) (by decide) (by decide)

/-! ## The fallback under monotone rounding -/

end GraphPostprocessor
